import Mathlib

/-!
# Polyscope `Structure` base class: a shallow embedding of `src/structure.cpp`

The C++ class `polyscope::Structure` is embedded as a record of its data members,
and every method becomes a pure function that passes the state it touches
explicitly.  Scalars (`float`, `double`) are taken over `ℚ`, i.e. exact
arithmetic; 4x4 matrices are `Matrix (Fin 4) (Fin 4) ℚ` indexed `row column`,
so that `*` is the usual matrix product, as `glm`'s `operator*` is.  The one
place where a `double` is stored into a `float` cell, `setTransparency`, rounds
with `narrowToFloat`.

Process-wide state (`polyscope::state::structures`, `options::transparencyMode`,
the redraw flag) lives in the record `World`, together with a heap that
resolves the `Structure*` pointers stored in the registry.
-/

namespace polyscope

/-! ## External collaborators -/

/-- The type `glm::vec3`, with exact rational coordinates. -/
structure Vec3 where
  x : ℚ
  y : ℚ
  z : ℚ
deriving DecidableEq

/-- Componentwise sum, `glm::vec3 operator+`. -/
def Vec3.add (a b : Vec3) : Vec3 := ⟨a.x + b.x, a.y + b.y, a.z + b.z⟩

/-- Division of every component by a scalar, `glm::vec3 operator/ (vec3, float)`. -/
def Vec3.divScalar (a : Vec3) (d : ℚ) : Vec3 := ⟨a.x / d, a.y / d, a.z / d⟩

/-- Unary minus, `glm::vec3 operator-`. -/
def Vec3.neg (a : Vec3) : Vec3 := ⟨-a.x, -a.y, -a.z⟩

/-- The type `glm::mat4x4`; entry `m r c` is row `r`, column `c`. -/
abbrev Mat4 := Matrix (Fin 4) (Fin 4) ℚ

/-- The function `glm::translate(m, v)`: columns 0..2 of `m` are kept and column 3
becomes `m[0]*v.x + m[1]*v.y + m[2]*v.z + m[3]` (`m[c]` being column `c`). -/
def glm.translate (m : Mat4) (v : Vec3) : Mat4 :=
  Matrix.of fun r c =>
    if c = 3 then m r 0 * v.x + m r 1 * v.y + m r 2 * v.z + m r 3 else m r c

/-- The function `glm::scale(m, v)`: column `c < 3` of `m` is multiplied by the
`c`-th component of `v`, column 3 is kept. -/
def glm.scale (m : Mat4) (v : Vec3) : Mat4 :=
  Matrix.of fun r c =>
    if c = 0 then m r 0 * v.x
    else if c = 1 then m r 1 * v.y
    else if c = 2 then m r 2 * v.z
    else m r 3

/-- A point `(x, y, z)` in homogeneous coordinates `(x, y, z, 1)`. -/
def Vec3.homogeneous (a : Vec3) : Fin 4 → ℚ :=
  fun i => if i = 0 then a.x else if i = 1 then a.y else if i = 2 then a.z else 1

/-- Modelled from the spec: the tracked-property cell `PersistentValue<T>`, whose
declaration is in a header of its own, outside `structure.cpp`.  The spec
describes it as a named, persisted value cell with get/set and an explicit
"manually changed" notification hook.  `notifications` counts the change
notifications issued so far; an assignment (`operator=`) stores the value and
notifies. -/
structure PersistentValue (α : Type) where
  name : String
  value : α
  notifications : Nat

/-- Read access, `PersistentValue::get()`. -/
def PersistentValue.get {α : Type} (p : PersistentValue α) : α := p.value

/-- The hook `PersistentValue::manuallyChanged()`: one more change notification. -/
def PersistentValue.manuallyChanged {α : Type} (p : PersistentValue α) : PersistentValue α :=
  { p with notifications := p.notifications + 1 }

/-- Assignment `cell = v`: store the value and notify. -/
def PersistentValue.set {α : Type} (p : PersistentValue α) (v : α) : PersistentValue α :=
  { p with value := v, notifications := p.notifications + 1 }

/-- Modelled from the spec: the transform gizmo is an external widget bound to
the transform cell; the structure only owns the binding, of which the
persistence key is all that is kept here. -/
structure TransformationGizmo where
  name : String

/-- Modelled from the spec: the process-wide transparency mode enum (declared in
a header, outside `structure.cpp`).  The code names `None` ("off") and
`Pretty`; every further member of the enum is `Other tag`. -/
inductive TransparencyMode where
  | None
  | Pretty
  | Other (tag : Nat)
deriving DecidableEq

/-! ## The structure record -/

/-- Data members of `polyscope::Structure`.  `typeName` is the value returned by
the variant's virtual `typeName()`; `extentsUpdates` counts the calls made to the
variant's virtual hook `updateStructureExtents()`, which is not given a body in
this file and is taken not to touch the members below.  The `transparency` cell
is a `float` (the options menu hands its address to `ImGui::SliderFloat`): it
holds the rationals that `narrowToFloat` produces. -/
structure Structure where
  name : String
  typeName : String
  enabled : PersistentValue Bool
  objectTransform : PersistentValue Mat4
  transparency : PersistentValue ℚ
  transformGizmo : TransformationGizmo
  ignoredSlicePlaneNames : PersistentValue (List String)
  extentsUpdates : Nat

namespace Structure

/-- The virtual hook `updateStructureExtents()`, recorded as a call count. -/
def updateStructureExtents (s : Structure) : Structure :=
  { s with extentsUpdates := s.extentsUpdates + 1 }

/-- The method `Structure::isEnabled`. -/
def isEnabled (s : Structure) : Bool := s.enabled.get

/-- The method `Structure::setEnabled`: returns early when the flag already has
the requested value, assigns it otherwise. -/
def setEnabled (s : Structure) (newEnabled : Bool) : Structure :=
  if newEnabled = s.isEnabled then s
  else { s with enabled := s.enabled.set newEnabled }

/-- The method `Structure::getTransform`. -/
def getTransform (s : Structure) : Mat4 := s.objectTransform.get

/-- The method `Structure::setTransform`. -/
def setTransform (s : Structure) (transform : Mat4) : Structure :=
  updateStructureExtents
    { s with objectTransform := s.objectTransform.set (transform * s.objectTransform.get) }

/-- The method `Structure::resetTransform`. -/
def resetTransform (s : Structure) : Structure :=
  updateStructureExtents { s with objectTransform := s.objectTransform.set 1 }

/-- The method `Structure::centerBoundingBox`; `bbox` is the pair `(min, max)`
returned by the variant's virtual `boundingBox()`. -/
def centerBoundingBox (s : Structure) (bbox : Vec3 × Vec3) : Structure :=
  let center := (bbox.2.add bbox.1).divScalar 2
  let newTrans := glm.translate 1 (Vec3.neg ⟨center.x, center.y, center.z⟩)
  updateStructureExtents
    { s with objectTransform := s.objectTransform.set (newTrans * s.objectTransform.get) }

/-- The method `Structure::rescaleToUnit`; `currScale` is the value returned by
the variant's virtual `lengthScale()`.  The quotient is the exact rational one
(with `1 / 0 = 0`, where IEEE arithmetic gives an infinity). -/
def rescaleToUnit (s : Structure) (currScale : ℚ) : Structure :=
  let sc : ℚ := 1 / currScale
  let newTrans := glm.scale 1 ⟨sc, sc, sc⟩
  updateStructureExtents
    { s with objectTransform := s.objectTransform.set (newTrans * s.objectTransform.get) }

/-- The method `Structure::getTransparency`. -/
def getTransparency (s : Structure) : ℚ := s.transparency.get

/-- The method `Structure::getIgnoreSlicePlane`: linear search by name equality. -/
def getIgnoreSlicePlane (s : Structure) (name : String) : Bool :=
  let names := s.ignoredSlicePlaneNames.get
  (names.find? (fun n => n == name)).isSome

end Structure

/-- Rounding of a rational to the nearest integer, ties to the even one. -/
def roundHalfEven (x : ℚ) : ℤ :=
  if x - ⌊x⌋ < 1 / 2 then ⌊x⌋
  else if 1 / 2 < x - ⌊x⌋ then ⌊x⌋ + 1
  else if ⌊x⌋ % 2 = 0 then ⌊x⌋
  else ⌊x⌋ + 1

/-- The distance between neighbouring binary32 values in the binade of `q`:
`2 ^ (e - 23)` where `2 ^ e <= |q| < 2 ^ (e + 1)`, with `e` no smaller than `-126`
(below that the values are subnormal and equally spaced). -/
def float32Spacing (q : ℚ) : ℚ :=
  (2 : ℚ) ^ (max (Int.log 2 |q|) (-126) - 23)

/-- The conversion of a finite `double` to `float` that an assignment to a `float`
makes: the nearest binary32 value, ties to the even significand.  So `0.1`
becomes `13421773 / 134217728`, while `0`, `1/2`, `1` and `2` stay as they are.
Magnitudes beyond the binary32 range, which the conversion turns into an
infinity, have no counterpart over `ℚ` and are rounded on the grid of their
binade all the same. -/
def narrowToFloat (q : ℚ) : ℚ :=
  roundHalfEven (q / float32Spacing q) * float32Spacing q

/-- Modelled from the spec: the process-wide state this file reads and writes
besides the registry, namely `options::transparencyMode` and the "frame is
dirty" signal raised by `requestRedraw()` (both declared outside
`structure.cpp`).  `redrawRequests` counts the redraw requests issued so far. -/
structure Globals where
  transparencyMode : TransparencyMode
  redrawRequests : Nat

/-- Modelled from the spec: `requestRedraw()`, the process-wide redraw request. -/
def requestRedraw (g : Globals) : Globals :=
  { g with redrawRequests := g.redrawRequests + 1 }

/-- Modelled from the spec: `validateName`, called by the constructor and defined
outside `structure.cpp`; it rejects a name that contains the delimiter
character of the persistence keys. -/
def validateName (name : String) : Except String Unit :=
  if '#' ∈ name.data then .error "name must not contain the delimiter character"
  else .ok ()

namespace Structure

/-- The method `Structure::setTransparency`: stores the `double` argument in the
`float` cell (which rounds it), promotes the process-wide mode from `None` to
`Pretty` when the argument is below one, requests a redraw. -/
def setTransparency (s : Structure) (newVal : ℚ) (g : Globals) : Structure × Globals :=
  let s1 := { s with transparency := s.transparency.set (narrowToFloat newVal) }
  let g1 : Globals :=
    if newVal < 1 ∧ g.transparencyMode = TransparencyMode.None then
      { g with transparencyMode := TransparencyMode.Pretty }
    else g
  (s1, requestRedraw g1)

/-- The method `Structure::setIgnoreSlicePlane`: returns early when the membership
test already equals `newValue`; otherwise appends the name (`push_back`), notifies
and requests a redraw. -/
def setIgnoreSlicePlane (s : Structure) (name : String) (newValue : Bool) (g : Globals) :
    Structure × Globals :=
  if s.getIgnoreSlicePlane name = newValue then (s, g)
  else
    let pushed : PersistentValue (List String) :=
      { s.ignoredSlicePlaneNames with value := s.ignoredSlicePlaneNames.get ++ [name] }
    let s1 := { s with ignoredSlicePlaneNames := pushed.manuallyChanged }
    (s1, requestRedraw g)

/-- The member initialisers of the constructor `Structure::Structure(name_, subtypeName)`;
`typeName` is what the variant under construction answers to `typeName()`. -/
def initial (name_ subtypeName typeName : String) : Structure :=
  { name := name_
    typeName := typeName
    enabled := ⟨subtypeName ++ "#" ++ name_ ++ "#enabled", true, 0⟩
    objectTransform := ⟨subtypeName ++ "#" ++ name_ ++ "#object_transform", 1, 0⟩
    transparency := ⟨subtypeName ++ "#" ++ name_ ++ "#transparency", 1, 0⟩
    transformGizmo := ⟨subtypeName ++ "#" ++ name_ ++ "#transform_gizmo"⟩
    ignoredSlicePlaneNames := ⟨subtypeName ++ "#" ++ name_ ++ "#ignored_slice_planes", [], 0⟩
    extentsUpdates := 0 }

/-- The constructor `Structure::Structure`: the members are initialised, then the
body validates the name; a failed validation leaves no structure. -/
def construct (name_ subtypeName typeName : String) : Except String Structure :=
  match validateName (initial name_ subtypeName typeName).name with
  | .error e => .error e
  | .ok _ => .ok (initial name_ subtypeName typeName)

end Structure

/-! ## The registry and the process-wide state -/

/-- A `Structure*`: an address in the heap of the `World`. -/
abbrev Ptr := Nat

/-- The registry `polyscope::state::structures`: type name to (instance name to
structure pointer), each map as the list of its entries in iteration order. -/
abbrev Registry := List (String × List (String × Ptr))

/-- The bucket `structures[key]` as the loops of this file iterate it; a key
that is absent yields the empty bucket that `operator[]` inserts. -/
def Registry.bucket (r : Registry) (key : String) : List (String × Ptr) :=
  (r.lookup key).getD []

/-- The insertion `std::map::operator[]` performs: an absent key gains an empty
bucket, a present one changes nothing. -/
def Registry.touch (r : Registry) (key : String) : Registry :=
  if (r.lookup key).isSome then r else r ++ [(key, [])]

/-- The whole process state: the structures behind their pointers, the registry
and the remaining globals. -/
structure World where
  heap : Ptr → Structure
  structures : Registry
  globals : Globals

namespace World

/-- Write a structure back behind its pointer. -/
def store (w : World) (p : Ptr) (s : Structure) : World :=
  { w with heap := Function.update w.heap p s }

/-- The call `p->setEnabled(b)`. -/
def setEnabled (w : World) (p : Ptr) (b : Bool) : World :=
  w.store p ((w.heap p).setEnabled b)

/-- The loop `for (auto& structure : bucket) structure.second->setEnabled(b)`. -/
def setEnabledEach (w : World) (bucket : List (String × Ptr)) (b : Bool) : World :=
  bucket.foldl (fun acc entry => acc.setEnabled entry.2 b) w

/-- The method `Structure::enableIsolate` called on the structure at `self`. -/
def enableIsolate (w : World) (self : Ptr) : World :=
  let key := (w.heap self).typeName
  let w1 := { w with structures := w.structures.touch key }
  let w2 := w1.setEnabledEach (w1.structures.bucket key) false
  w2.setEnabled self true

/-- The method `Structure::setEnabledAllOfType` called on the structure at `self`. -/
def setEnabledAllOfType (w : World) (self : Ptr) (newEnabled : Bool) : World :=
  let key := (w.heap self).typeName
  let w1 := { w with structures := w.structures.touch key }
  w1.setEnabledEach (w1.structures.bucket key) newEnabled

/-- Run a method that touches only its own structure. -/
def onSelf (w : World) (self : Ptr) (f : Structure → Structure) : World :=
  w.store self (f (w.heap self))

/-- Run a method that touches its own structure and the globals. -/
def onSelfGlobals (w : World) (self : Ptr) (f : Structure → Globals → Structure × Globals) :
    World :=
  let r := f (w.heap self) w.globals
  { (w.store self r.1) with globals := r.2 }

end World

/-- The state-changing public methods of `Structure`, with the values the virtual
calls return where a method makes one. -/
inductive Op where
  | setEnabled (newEnabled : Bool)
  | enableIsolate
  | setEnabledAllOfType (newEnabled : Bool)
  | refresh
  | setTransform (transform : Mat4)
  | resetTransform
  | centerBoundingBox (bbox : Vec3 × Vec3)
  | rescaleToUnit (currScale : ℚ)
  | setTransparency (newVal : ℚ)
  | setIgnoreSlicePlane (name : String) (newValue : Bool)

/-- One public call `self->op(...)` on the process state. -/
def World.step (w : World) (call : Ptr × Op) : World :=
  match call.2 with
  | .setEnabled b => w.setEnabled call.1 b
  | .enableIsolate => w.enableIsolate call.1
  | .setEnabledAllOfType b => w.setEnabledAllOfType call.1 b
  | .refresh => { w with globals := requestRedraw w.globals }
  | .setTransform m => w.onSelf call.1 (fun s => s.setTransform m)
  | .resetTransform => w.onSelf call.1 (fun s => s.resetTransform)
  | .centerBoundingBox bbox => w.onSelf call.1 (fun s => s.centerBoundingBox bbox)
  | .rescaleToUnit l => w.onSelf call.1 (fun s => s.rescaleToUnit l)
  | .setTransparency v => w.onSelfGlobals call.1 (fun s g => s.setTransparency v g)
  | .setIgnoreSlicePlane n b => w.onSelfGlobals call.1 (fun s g => s.setIgnoreSlicePlane n b g)

/-- A sequence of public calls, first element first. -/
def World.run (w : World) (calls : List (Ptr × Op)) : World :=
  calls.foldl World.step w

/-- Whether a call is anything but a `setTransparency` with an argument outside
`[0, 1]`. -/
def Op.transparencyInRange : Op → Bool
  | .setTransparency v => decide (0 ≤ v ∧ v ≤ 1)
  | _ => true

/-- A sequence of `setIgnoreSlicePlane` calls on one structure, first element
first, threading the globals. -/
def runIgnoreCalls (s : Structure) (g : Globals) (calls : List (String × Bool)) :
    Structure × Globals :=
  calls.foldl (fun acc c => acc.1.setIgnoreSlicePlane c.1 c.2 acc.2) (s, g)

/-- The transform operations of the options menu and of the public interface,
with the values the virtual calls return where a method makes one. -/
inductive TransformOp where
  | setTransform (transform : Mat4)
  | centerBoundingBox (bbox : Vec3 × Vec3)
  | rescaleToUnit (currScale : ℚ)

/-- Run one transform operation on a structure. -/
def TransformOp.apply (s : Structure) : TransformOp → Structure
  | .setTransform m => s.setTransform m
  | .centerBoundingBox bbox => s.centerBoundingBox bbox
  | .rescaleToUnit l => s.rescaleToUnit l

/-- Run a sequence of transform operations, first element first. -/
def runTransformOps (s : Structure) (ops : List TransformOp) : Structure :=
  ops.foldl TransformOp.apply s

/-- The midpoint `(min + max) / 2` of a box given by its two corners. -/
def boxMidpoint (min max : Vec3) : Vec3 :=
  ⟨(min.x + max.x) / 2, (min.y + max.y) / 2, (min.z + max.z) / 2⟩

/-- Two structure states that agree on every member except, possibly, the
`enabled` cell. -/
def Structure.sameButEnabled (a b : Structure) : Prop :=
  a.name = b.name ∧ a.typeName = b.typeName ∧ a.objectTransform = b.objectTransform
    ∧ a.transparency = b.transparency ∧ a.transformGizmo = b.transformGizmo
    ∧ a.ignoredSlicePlaneNames = b.ignoredSlicePlaneNames ∧ a.extentsUpdates = b.extentsUpdates

/-- The registry as registration leaves it: a structure listed in the bucket of
a type name answers that type name to `typeName()`. -/
def World.registryWellFormed (w : World) : Prop :=
  ∀ (key name : String) (q : Ptr), (name, q) ∈ w.structures.bucket key →
    (w.heap q).typeName = key

/-- A structure of another variant as its constructor leaves it. -/
def exampleMesh (name_ : String) : Structure :=
  Structure.initial name_ "SurfaceMesh" "Surface Mesh"

/-- The method `Structure::uniquePrefix`. -/
def Structure.uniquePrefix (s : Structure) : String :=
  s.typeName ++ "#" ++ s.name ++ "#"

/-- The keys under which the five members of a structure are persisted, in the
order of the member initialisers of the constructor. -/
def Structure.persistenceKeys (s : Structure) : List String :=
  [s.enabled.name, s.objectTransform.name, s.transparency.name, s.transformGizmo.name,
    s.ignoredSlicePlaneNames.name]

/-- The five property keys the constructor appends after the second delimiter. -/
def propertyKeys : List String :=
  ["enabled", "object_transform", "transparency", "transform_gizmo", "ignored_slice_planes"]

/-- The key scheme in the words of the spec: type tag, `#`, name, `#`, property
key. -/
def persistedKey (typeTag name propertyKey : String) : String :=
  typeTag ++ "#" ++ name ++ "#" ++ propertyKey

/-! ## Shader programs and the uniform-push contract -/

/-- The type `glm::vec4`; `v[2]` is `z` and `v[3]` is `w`. -/
structure Vec4 where
  x : ℚ
  y : ℚ
  z : ℚ
  w : ℚ

/-- The function `glm::inverse` on 4x4 matrices: the adjugate divided by the
determinant. -/
def glm.inverse (m : Mat4) : Mat4 := (m.det)⁻¹ • m.adjugate

/-- The value handed to `ShaderProgram::setUniform`. -/
inductive UniformValue where
  | mat4 (m : Mat4)
  | scalar (x : ℚ)
  | vec2 (x y : ℚ)
  | vec4 (v : Vec4)

/-- One write received by a shader program: a uniform upload, a texture
attachment, or a call of a slice plane's own uniform-writing routine with the
flag it was given. -/
inductive ProgramWrite where
  | uniform (name : String) (value : UniformValue)
  | texture (name : String)
  | slicePlane (planeName : String) (ignore : Bool)

/-- Whether a write is an upload of the uniform `name`. -/
def ProgramWrite.isUniform (name : String) : ProgramWrite → Bool
  | .uniform n _ => n == name
  | _ => false

/-- Whether a write attaches the texture `name`. -/
def ProgramWrite.isTexture (name : String) : ProgramWrite → Bool
  | .texture n => n == name
  | _ => false

/-- The slice-plane call recorded by a write, if it is one. -/
def ProgramWrite.slicePlaneCall : ProgramWrite → Option (String × Bool)
  | .slicePlane n b => some (n, b)
  | _ => none

/-- Modelled from the spec: `render::ShaderProgram`, kept to its uniform-setting
contract.  A program declares uniform and texture names (probed by
`hasUniform` / `hasTexture`), remembers which texture slots are bound
(`textureIsSet`), and `writes` records, oldest first, everything written to it. -/
structure ShaderProgram where
  uniforms : List String
  textures : List String
  boundTextures : List String
  writes : List ProgramWrite

namespace ShaderProgram

/-- The probe `ShaderProgram::hasUniform`. -/
def hasUniform (p : ShaderProgram) (name : String) : Bool := p.uniforms.contains name

/-- The probe `ShaderProgram::hasTexture`. -/
def hasTexture (p : ShaderProgram) (name : String) : Bool := p.textures.contains name

/-- The probe `ShaderProgram::textureIsSet`. -/
def textureIsSet (p : ShaderProgram) (name : String) : Bool := p.boundTextures.contains name

/-- The call `ShaderProgram::setUniform`. -/
def setUniform (p : ShaderProgram) (name : String) (value : UniformValue) : ShaderProgram :=
  { p with writes := p.writes ++ [ProgramWrite.uniform name value] }

/-- The call `ShaderProgram::setTextureFromBuffer`: the slot is bound from now on. -/
def setTextureFromBuffer (p : ShaderProgram) (name : String) : ShaderProgram :=
  { p with boundTextures := name :: p.boundTextures
           writes := p.writes ++ [ProgramWrite.texture name] }

/-- The writes a program received after its log had length `before`. -/
def writesSince (p : ShaderProgram) (before : Nat) : List ProgramWrite := p.writes.drop before

end ShaderProgram

/-- Modelled from the spec: a slice plane, of which this file uses the name and
the uniform-writing routine. -/
structure SlicePlane where
  name : String

/-- Modelled from the spec: `SlicePlane::setSceneObjectUniforms(p, ignore)`, the
plane's own uniform-writing routine; how it encodes the flag is the plane's
business, so the call is recorded with its flag. -/
def SlicePlane.setSceneObjectUniforms (sp : SlicePlane) (p : ShaderProgram) (ignore : Bool) :
    ShaderProgram :=
  { p with writes := p.writes ++ [ProgramWrite.slicePlane sp.name ignore] }

/-- Modelled from the spec: what `setTransformUniforms` reads from the render
engine, the camera and the process-wide slice-plane list. -/
structure RenderContext where
  transparencyEnabled : Bool
  currentViewport : Vec4
  cameraViewMatrix : Mat4
  cameraPerspectiveMatrix : Mat4
  slicePlanes : List SlicePlane

/-- The method `Structure::getModelView`. -/
def Structure.getModelView (s : Structure) (ctx : RenderContext) : Mat4 :=
  ctx.cameraViewMatrix * s.objectTransform.get

/-- The method `Structure::setTransformUniforms`, statement by statement. -/
def Structure.setTransformUniforms (s : Structure) (ctx : RenderContext) (p : ShaderProgram) :
    ShaderProgram :=
  let viewMat := s.getModelView ctx
  let p := p.setUniform "u_modelView" (UniformValue.mat4 viewMat)
  let projMat := ctx.cameraPerspectiveMatrix
  let p := p.setUniform "u_projMatrix" (UniformValue.mat4 projMat)
  let p :=
    if ctx.transparencyEnabled then
      let p :=
        if p.hasUniform "u_transparency" then
          p.setUniform "u_transparency" (UniformValue.scalar s.transparency.get)
        else p
      let p :=
        if p.hasUniform "u_viewportDim" then
          let viewport := ctx.currentViewport
          p.setUniform "u_viewportDim" (UniformValue.vec2 viewport.z viewport.w)
        else p
      if ctx.transparencyEnabled && p.hasTexture "t_minDepth" && !p.textureIsSet "t_minDepth" then
        p.setTextureFromBuffer "t_minDepth"
      else p
    else p
  let p :=
    ctx.slicePlanes.foldl
      (fun q sp => sp.setSceneObjectUniforms q (s.getIgnoreSlicePlane sp.name)) p
  let p :=
    if p.hasUniform "u_viewport_worldPos" then
      p.setUniform "u_viewport_worldPos" (UniformValue.vec4 ctx.currentViewport)
    else p
  let p :=
    if p.hasUniform "u_invProjMatrix_worldPos" then
      p.setUniform "u_invProjMatrix_worldPos"
        (UniformValue.mat4 (glm.inverse ctx.cameraPerspectiveMatrix))
    else p
  if p.hasUniform "u_invViewMatrix_worldPos" then
    p.setUniform "u_invViewMatrix_worldPos" (UniformValue.mat4 (glm.inverse ctx.cameraViewMatrix))
  else p

/-- A sequence of `setTransformUniforms` calls on one program, first element
first; each call comes with its structure and the context it runs in. -/
def runTransformUniforms (p : ShaderProgram) (calls : List (Structure × RenderContext)) :
    ShaderProgram :=
  calls.foldl (fun q c => c.1.setTransformUniforms c.2 q) p

/-- The writes one call of `setTransformUniforms` adds to the log of the program. -/
def Structure.transformUniformWrites (s : Structure) (ctx : RenderContext) (p : ShaderProgram) :
    List ProgramWrite :=
  (s.setTransformUniforms ctx p).writesSince p.writes.length

/-- A program that declares the transparency uniform, the min-depth texture and
one of the world-position uniforms, with nothing bound or written yet. -/
def exampleProgram : ShaderProgram :=
  { uniforms := ["u_modelView", "u_projMatrix", "u_transparency", "u_invViewMatrix_worldPos"]
    textures := ["t_minDepth"]
    boundTextures := []
    writes := [] }

/-- A context with transparency compositing on or off, identity camera matrices
and the two slice planes `p` and `q`. -/
def exampleContext (transparencyEnabled : Bool) : RenderContext :=
  { transparencyEnabled := transparencyEnabled
    currentViewport := ⟨0, 0, 800, 600⟩
    cameraViewMatrix := 1
    cameraPerspectiveMatrix := 1
    slicePlanes := [⟨"p"⟩, ⟨"q"⟩] }

/-! ## Example states -/

/-- A point cloud as its constructor leaves it. -/
def exampleCloud (name_ : String) : Structure :=
  Structure.initial name_ "PointCloud" "Point Cloud"

/-- Globals with the transparency mode off and no redraw requested yet. -/
def exampleGlobals : Globals := ⟨TransparencyMode.None, 0⟩

/-- Three point clouds `x`, `y`, `z` at addresses 0, 1, 2, registered in one
bucket; `x` and `z` start disabled, `y` enabled. -/
def exampleWorld : World :=
  { heap := fun p =>
      if p = 0 then (exampleCloud "x").setEnabled false
      else if p = 1 then exampleCloud "y"
      else (exampleCloud "z").setEnabled false
    structures := [("Point Cloud", [("x", 0), ("y", 1), ("z", 2)])]
    globals := exampleGlobals }

/-- Two point clouds `x`, `y` at addresses 0, 1 and a mesh `m` at address 2 (and
at every further address), each registered under its own type name. -/
def exampleTwoTypes : World :=
  { heap := fun p =>
      if p = 0 then exampleCloud "x"
      else if p = 1 then exampleCloud "y"
      else exampleMesh "m"
    structures := [("Point Cloud", [("x", 0), ("y", 1)]), ("Surface Mesh", [("m", 2)])]
    globals := exampleGlobals }

/-! ## Theorems -/

/-- C1: after `setTransform(A)` and then `setTransform(B)` the transform read by
`getTransform()` is `B * A * T0`, where `T0` is the transform before the two
calls: each call left-multiplies and none replaces. -/
theorem setTransform_twice (s : Structure) (A B : Mat4) :
    ((s.setTransform A).setTransform B).getTransform = B * A * s.getTransform := by
  simp [Structure.setTransform, Structure.getTransform, Structure.updateStructureExtents,
    PersistentValue.set, PersistentValue.get, Matrix.mul_assoc]

/-- C2: from any structure state, and so from any state reached by a sequence of
`setTransform`, `centerBoundingBox` and `rescaleToUnit` calls, `resetTransform()`
followed by `getTransform()` gives the identity matrix. -/
theorem resetTransform_getTransform (s : Structure) (ops : List TransformOp) :
    (runTransformOps s ops).resetTransform.getTransform = 1 := by
  simp [Structure.resetTransform, Structure.getTransform, Structure.updateStructureExtents,
    PersistentValue.set, PersistentValue.get]

/-! ### Helper lemmas: the enabled flag -/

theorem Structure.isEnabled_setEnabled (s : Structure) (b : Bool) :
    (s.setEnabled b).isEnabled = b := by
  unfold Structure.setEnabled
  split
  · next h => exact h.symm
  · rfl

theorem World.heap_setEnabled (w : World) (p q : Ptr) (b : Bool) :
    (w.setEnabled p b).heap q = if q = p then (w.heap p).setEnabled b else w.heap q := by
  unfold World.setEnabled World.store
  by_cases h : q = p
  · subst h; simp
  · simp [h]

theorem World.setEnabledEach_cons (w : World) (e : String × Ptr) (l : List (String × Ptr))
    (b : Bool) :
    w.setEnabledEach (e :: l) b = (w.setEnabled e.2 b).setEnabledEach l b := rfl

theorem World.isEnabled_setEnabledEach (bucket : List (String × Ptr)) (b : Bool) (w : World)
    (q : Ptr) :
    ((w.setEnabledEach bucket b).heap q).isEnabled
      = if q ∈ bucket.map Prod.snd then b else (w.heap q).isEnabled := by
  induction bucket generalizing w with
  | nil => simp [World.setEnabledEach]
  | cons e l ih =>
    rw [World.setEnabledEach_cons, ih, World.heap_setEnabled]
    by_cases hl : q ∈ l.map Prod.snd
    · simp [hl]
    · by_cases he : q = e.2
      · subst he
        simp [hl, Structure.isEnabled_setEnabled]
      · simp [hl, he]

theorem Registry.bucket_touch (r : Registry) (key : String) :
    Registry.bucket (Registry.touch r key) key = Registry.bucket r key := by
  unfold Registry.touch Registry.bucket
  cases h : List.lookup key r with
  | some b => simp [h]
  | none => simp [h, List.lookup_append]

theorem World.setEnabledEach_structures (bucket : List (String × Ptr)) (b : Bool) (w : World) :
    (w.setEnabledEach bucket b).structures = w.structures
      ∧ (w.setEnabledEach bucket b).globals = w.globals := by
  induction bucket generalizing w with
  | nil => exact ⟨rfl, rfl⟩
  | cons e l ih =>
    rw [World.setEnabledEach_cons]
    exact ih (w.setEnabled e.2 b)

/-- C3: after `X.enableIsolate()`, `X` is enabled and every other structure `Y`
found in the registry bucket of `X`'s type is disabled, whatever the enabled
flags were before. -/
theorem enableIsolate_isolates (w : World) (X Y : Ptr) (nameY : String)
    (hY : (nameY, Y) ∈ w.structures.bucket (w.heap X).typeName) (hne : Y ≠ X) :
    ((w.enableIsolate X).heap X).isEnabled = true
      ∧ ((w.enableIsolate X).heap Y).isEnabled = false := by
  have hmem : Y ∈ (w.structures.bucket (w.heap X).typeName).map Prod.snd :=
    List.mem_map.mpr ⟨(nameY, Y), hY, rfl⟩
  unfold World.enableIsolate
  simp only [World.heap_setEnabled, Registry.bucket_touch, if_true, if_neg hne,
    Structure.isEnabled_setEnabled, World.isEnabled_setEnabledEach, if_pos hmem, and_self]

/-- Witness for C3 on three registered point clouds: `x` isolates itself while
`y` was enabled. -/
theorem enableIsolate_isolates_witness :
    (("y", 1) ∈ exampleWorld.structures.bucket (exampleWorld.heap 0).typeName ∧ (1 : Ptr) ≠ 0)
      ∧ ((exampleWorld.enableIsolate 0).heap 0).isEnabled = true
      ∧ ((exampleWorld.enableIsolate 0).heap 1).isEnabled = false :=
  ⟨⟨by decide, by decide⟩, enableIsolate_isolates exampleWorld 0 1 "y" (by decide) (by decide)⟩

/-- C4: after `setTransparency(v)` the process-wide mode is `Pretty` when `v < 1`
and the mode was `None`, and is the prior mode otherwise; so `setTransparency(0.5)`
under `None` gives `Pretty` and `setTransparency(1.0)` under `None` leaves `None`. -/
theorem setTransparency_mode (s : Structure) (v : ℚ) (g : Globals) :
    (s.setTransparency v g).2.transparencyMode
        = (if v < 1 ∧ g.transparencyMode = TransparencyMode.None then TransparencyMode.Pretty
           else g.transparencyMode)
      ∧ (s.setTransparency (1 / 2) ⟨TransparencyMode.None, g.redrawRequests⟩).2.transparencyMode
          = TransparencyMode.Pretty
      ∧ (s.setTransparency 1 ⟨TransparencyMode.None, g.redrawRequests⟩).2.transparencyMode
          = TransparencyMode.None := by
  refine ⟨?_, ?_, ?_⟩
  · unfold Structure.setTransparency requestRedraw
    split <;> rfl
  · have h : (2⁻¹ : ℚ) < 1 := by norm_num
    simp [Structure.setTransparency, requestRedraw, h]
  · simp [Structure.setTransparency, requestRedraw]

/-- C5: the code run on a fresh structure with `setIgnoreSlicePlane("p", true)`
followed by `setIgnoreSlicePlane("p", false)`: the second call appends `"p"` a second
time, so the ignore-set holds a duplicate. -/
theorem setIgnoreSlicePlane_duplicates :
    Structure.construct "cloud1" "PointCloud" "Point Cloud" = .ok (exampleCloud "cloud1")
      ∧ (runIgnoreCalls (exampleCloud "cloud1") exampleGlobals
          [("p", true), ("p", false)]).1.ignoredSlicePlaneNames.get = ["p", "p"]
      ∧ ¬ (runIgnoreCalls (exampleCloud "cloud1") exampleGlobals
          [("p", true), ("p", false)]).1.ignoredSlicePlaneNames.get.Nodup := by
  refine ⟨rfl, ?_, ?_⟩
  · decide
  · decide

/-! ### Helper lemmas: the ignore-set -/

theorem Structure.getIgnoreSlicePlane_iff (s : Structure) (name : String) :
    s.getIgnoreSlicePlane name = true ↔ name ∈ s.ignoredSlicePlaneNames.get := by
  simp [Structure.getIgnoreSlicePlane, List.find?_isSome]

theorem Structure.names_setIgnoreSlicePlane (s : Structure) (name : String) (newValue : Bool)
    (g : Globals) :
    (s.setIgnoreSlicePlane name newValue g).1.ignoredSlicePlaneNames.get
      = if s.getIgnoreSlicePlane name = newValue then s.ignoredSlicePlaneNames.get
        else s.ignoredSlicePlaneNames.get ++ [name] := by
  unfold Structure.setIgnoreSlicePlane
  split <;> rfl

theorem Structure.setIgnoreSlicePlane_of_eq (s : Structure) (name : String) (newValue : Bool)
    (g : Globals) (h : s.getIgnoreSlicePlane name = newValue) :
    s.setIgnoreSlicePlane name newValue g = (s, g) := by
  unfold Structure.setIgnoreSlicePlane
  rw [if_pos h]

/-- C7: after `setIgnoreSlicePlane(name, true)` the membership test
`getIgnoreSlicePlane(name)` is true; and on an ignore-set that does not contain
`name`, a second `setIgnoreSlicePlane(name, true)` changes nothing and `name`
occurs exactly once. -/
theorem setIgnoreSlicePlane_true_idempotent (s : Structure) (name : String) (g : Globals) :
    (s.setIgnoreSlicePlane name true g).1.getIgnoreSlicePlane name = true
      ∧ (name ∉ s.ignoredSlicePlaneNames.get →
          ((s.setIgnoreSlicePlane name true g).1.setIgnoreSlicePlane name true
              (s.setIgnoreSlicePlane name true g).2) = s.setIgnoreSlicePlane name true g
          ∧ ((s.setIgnoreSlicePlane name true g).1.setIgnoreSlicePlane name true
              (s.setIgnoreSlicePlane name true g).2).1.ignoredSlicePlaneNames.get.count name
              = 1) := by
  have hget : (s.setIgnoreSlicePlane name true g).1.getIgnoreSlicePlane name = true := by
    rw [Structure.getIgnoreSlicePlane_iff, Structure.names_setIgnoreSlicePlane]
    by_cases h : s.getIgnoreSlicePlane name = true
    · rw [if_pos h]
      exact (Structure.getIgnoreSlicePlane_iff s name).mp h
    · rw [if_neg h]
      simp
  refine ⟨hget, fun hnot => ?_⟩
  have hsame : (s.setIgnoreSlicePlane name true g).1.setIgnoreSlicePlane name true
      (s.setIgnoreSlicePlane name true g).2 = s.setIgnoreSlicePlane name true g := by
    rw [Structure.setIgnoreSlicePlane_of_eq _ name true _ hget]
  refine ⟨hsame, ?_⟩
  rw [hsame, Structure.names_setIgnoreSlicePlane]
  have hfalse : ¬ s.getIgnoreSlicePlane name = true := fun h =>
    hnot ((Structure.getIgnoreSlicePlane_iff s name).mp h)
  rw [if_neg hfalse, List.count_append, List.count_eq_zero_of_not_mem hnot]
  simp

/-- Witness for C7 on a fresh point cloud and the plane name `p`. -/
theorem setIgnoreSlicePlane_true_idempotent_witness :
    "p" ∉ (exampleCloud "cloud1").ignoredSlicePlaneNames.get
      ∧ (((exampleCloud "cloud1").setIgnoreSlicePlane "p" true exampleGlobals).1.setIgnoreSlicePlane
            "p" true
            ((exampleCloud "cloud1").setIgnoreSlicePlane "p" true
              exampleGlobals).2).1.ignoredSlicePlaneNames.get.count "p" = 1 :=
  ⟨by decide,
    ((setIgnoreSlicePlane_true_idempotent (exampleCloud "cloud1") "p" exampleGlobals).2
      (by decide)).2⟩

/-- C8: `setEnabled(isEnabled())` leaves the whole structure state as it was, the
notification count of the `enabled` cell included (no assignment is made); and
after `setEnabled(b)`, `isEnabled()` is `b`. -/
theorem setEnabled_current_noop (s : Structure) (b : Bool) :
    s.setEnabled s.isEnabled = s
      ∧ (s.setEnabled s.isEnabled).enabled.notifications = s.enabled.notifications
      ∧ (s.setEnabled b).isEnabled = b := by
  have h : s.setEnabled s.isEnabled = s := by
    unfold Structure.setEnabled
    rw [if_pos rfl]
  exact ⟨h, by rw [h], Structure.isEnabled_setEnabled s b⟩

/-- C9: after `S.setEnabledAllOfType(b)`, every structure found in the registry
bucket of `S`'s type has `isEnabled() == b`; that covers `S` itself when it is
registered there. -/
theorem setEnabledAllOfType_all (w : World) (S p : Ptr) (b : Bool) (name : String)
    (hp : (name, p) ∈ w.structures.bucket (w.heap S).typeName) :
    ((w.setEnabledAllOfType S b).heap p).isEnabled = b := by
  have hmem : p ∈ (w.structures.bucket (w.heap S).typeName).map Prod.snd :=
    List.mem_map.mpr ⟨(name, p), hp, rfl⟩
  unfold World.setEnabledAllOfType
  simp only [Registry.bucket_touch, World.isEnabled_setEnabledEach, if_pos hmem]

/-- Witness for C9: `x` disables all point clouds, itself (address 0) included. -/
theorem setEnabledAllOfType_all_witness :
    ("x", 0) ∈ exampleWorld.structures.bucket (exampleWorld.heap 0).typeName
      ∧ ((exampleWorld.setEnabledAllOfType 0 true).heap 0).isEnabled = true :=
  ⟨by decide, setEnabledAllOfType_all exampleWorld 0 0 true "x" (by decide)⟩

/-- C10: `centerBoundingBox()` on a box `(min, max)` sets the transform to
`translate(-(min+max)/2) * T0`; that translation is the identity with the negated
midpoint as last column, and it sends the midpoint to the origin. -/
theorem centerBoundingBox_transform (s : Structure) (min max : Vec3) :
    (s.centerBoundingBox (min, max)).getTransform
        = glm.translate 1 (boxMidpoint min max).neg * s.getTransform
      ∧ glm.translate 1 (boxMidpoint min max).neg
          = !![1, 0, 0, -((min.x + max.x) / 2);
               0, 1, 0, -((min.y + max.y) / 2);
               0, 0, 1, -((min.z + max.z) / 2);
               0, 0, 0, 1]
      ∧ Matrix.mulVec (glm.translate 1 (boxMidpoint min max).neg) (boxMidpoint min max).homogeneous
          = Vec3.homogeneous ⟨0, 0, 0⟩ := by
  refine ⟨?_, ?_, ?_⟩
  · simp [Structure.centerBoundingBox, Structure.getTransform, Structure.updateStructureExtents,
      PersistentValue.set, PersistentValue.get, Vec3.add, Vec3.divScalar, Vec3.neg, boxMidpoint,
      add_comm]
  · ext i j
    fin_cases i <;> fin_cases j <;>
      simp [glm.translate, boxMidpoint, Vec3.neg, Matrix.one_apply, Matrix.vecHead,
        Matrix.vecTail]
  · ext i
    fin_cases i <;>
      simp [Matrix.mulVec, Matrix.dotProduct, Fin.sum_univ_four, glm.translate, boxMidpoint,
        Vec3.neg, Vec3.homogeneous, Matrix.one_apply]

/-! ### Helper lemmas: rounding to `float` -/

theorem roundHalfEven_nonneg (x : ℚ) (h : 0 ≤ x) : 0 ≤ roundHalfEven x := by
  have hf : 0 ≤ ⌊x⌋ := Int.floor_nonneg.mpr h
  unfold roundHalfEven
  split_ifs <;> omega

theorem roundHalfEven_le (x : ℚ) (n : ℤ) (h : x ≤ n) : roundHalfEven x ≤ n := by
  have hf : ⌊x⌋ ≤ n := by
    have := (Int.floor_le x).trans h
    exact_mod_cast this
  unfold roundHalfEven
  split_ifs with h1 h2 h3
  · exact hf
  · rcases lt_or_eq_of_le hf with hlt | heq
    · omega
    · exfalso
      have hx : x = n := le_antisymm h (by rw [← heq]; exact Int.floor_le x)
      rw [hx] at h2
      simp at h2
      linarith
  · exact hf
  · rcases lt_or_eq_of_le hf with hlt | heq
    · omega
    · exfalso
      have hx : x = n := le_antisymm h (by rw [← heq]; exact Int.floor_le x)
      rw [hx] at h1
      simp at h1

theorem roundHalfEven_intCast (n : ℤ) : roundHalfEven (n : ℚ) = n := by
  unfold roundHalfEven
  simp

theorem float32Spacing_of_abs_le_one (v : ℚ) (h1 : |v| ≤ 1) :
    ∃ n : ℕ, float32Spacing v = ((2 : ℚ) ^ n)⁻¹ := by
  have hlog : Int.log 2 |v| ≤ 0 := by
    rw [Int.log_of_right_le_one 2 h1]
    omega
  have hk : max (Int.log 2 |v|) (-126) - 23 ≤ 0 := by
    have : max (Int.log 2 |v|) (-126) ≤ 0 := max_le hlog (by norm_num)
    omega
  refine ⟨(-(max (Int.log 2 |v|) (-126) - 23)).toNat, ?_⟩
  unfold float32Spacing
  rw [← zpow_natCast, ← zpow_neg, Int.toNat_of_nonneg (by omega), neg_neg]

theorem narrowToFloat_mem_unit (v : ℚ) (h0 : 0 ≤ v) (h1 : v ≤ 1) :
    0 ≤ narrowToFloat v ∧ narrowToFloat v ≤ 1 := by
  obtain ⟨n, hn⟩ := float32Spacing_of_abs_le_one v (by rw [abs_of_nonneg h0]; exact h1)
  have hpos : (0 : ℚ) < 2 ^ n := by positivity
  unfold narrowToFloat
  rw [hn, div_inv_eq_mul]
  constructor
  · have := roundHalfEven_nonneg (v * 2 ^ n) (by positivity)
    have hc : (0 : ℚ) ≤ (roundHalfEven (v * 2 ^ n) : ℚ) := by exact_mod_cast this
    positivity
  · have hle : v * 2 ^ n ≤ ((2 ^ n : ℤ) : ℚ) := by
      push_cast
      nlinarith
    have := roundHalfEven_le (v * 2 ^ n) (2 ^ n) hle
    have hc : (roundHalfEven (v * 2 ^ n) : ℚ) ≤ 2 ^ n := by exact_mod_cast this
    rw [← div_eq_mul_inv, div_le_one hpos]
    exact hc

theorem narrowToFloat_two : narrowToFloat 2 = 2 := by
  have hlog : Int.log 2 |(2 : ℚ)| = 1 := by
    rw [abs_of_nonneg (by norm_num)]
    have := Int.log_zpow (R := ℚ) (b := 2) (by norm_num) 1
    simpa using this
  have hs : float32Spacing 2 = (4194304 : ℚ)⁻¹ := by
    unfold float32Spacing
    rw [hlog]
    norm_num
  unfold narrowToFloat
  rw [hs]
  have : (2 : ℚ) / (4194304 : ℚ)⁻¹ = ((8388608 : ℤ) : ℚ) := by norm_num
  rw [this, roundHalfEven_intCast]
  norm_num

theorem narrowToFloat_tenth : narrowToFloat (1 / 10) = 13421773 / 134217728 := by
  have hlog : Int.log 2 |(1 : ℚ) / 10| = -4 := by
    rw [abs_of_nonneg (by norm_num), Int.log_of_right_le_one 2 (by norm_num)]
    have h : ⌈((1 : ℚ) / 10)⁻¹⌉₊ = 10 := by norm_num
    have hc : Nat.clog 2 10 = 4 := by simp [Nat.clog]
    rw [h, hc]
    rfl
  have hs : float32Spacing (1 / 10) = (134217728 : ℚ)⁻¹ := by
    unfold float32Spacing
    rw [hlog]
    norm_num
  have hfloor : ⌊(67108864 : ℚ) / 5⌋ = 13421772 := by
    rw [Int.floor_eq_iff]
    norm_num
  unfold narrowToFloat
  rw [hs]
  have hq : (1 : ℚ) / 10 / (134217728 : ℚ)⁻¹ = 67108864 / 5 := by norm_num
  rw [hq]
  have hr : roundHalfEven (67108864 / 5) = 13421773 := by
    unfold roundHalfEven
    rw [hfloor]
    norm_num
  rw [hr]
  norm_num

/-! ### Helper lemmas: the transparency cell along public calls -/

theorem Structure.transparency_setEnabled (s : Structure) (b : Bool) :
    (s.setEnabled b).transparency = s.transparency := by
  unfold Structure.setEnabled
  split <;> rfl

theorem World.heap_transparency_setEnabled (w : World) (p q : Ptr) (b : Bool) :
    ((w.setEnabled p b).heap q).transparency = (w.heap q).transparency := by
  rw [World.heap_setEnabled]
  by_cases h : q = p
  · subst h
    rw [if_pos rfl, Structure.transparency_setEnabled]
  · rw [if_neg h]

theorem World.heap_transparency_setEnabledEach (bucket : List (String × Ptr)) (b : Bool) (w : World)
    (q : Ptr) :
    ((w.setEnabledEach bucket b).heap q).transparency = (w.heap q).transparency := by
  induction bucket generalizing w with
  | nil => rfl
  | cons e l ih => rw [World.setEnabledEach_cons, ih, World.heap_transparency_setEnabled]

theorem World.heap_onSelf (w : World) (p q : Ptr) (f : Structure → Structure) :
    (w.onSelf p f).heap q = if q = p then f (w.heap p) else w.heap q := by
  unfold World.onSelf World.store
  by_cases h : q = p
  · subst h; simp
  · simp [h]

theorem World.heap_onSelfGlobals (w : World) (p q : Ptr)
    (f : Structure → Globals → Structure × Globals) :
    (w.onSelfGlobals p f).heap q = if q = p then (f (w.heap p) w.globals).1 else w.heap q := by
  unfold World.onSelfGlobals World.store
  by_cases h : q = p
  · subst h; simp
  · simp [h]

theorem Structure.transparency_setIgnoreSlicePlane (s : Structure) (name : String) (b : Bool)
    (g : Globals) : (s.setIgnoreSlicePlane name b g).1.transparency = s.transparency := by
  unfold Structure.setIgnoreSlicePlane
  split <;> rfl

/-- One public call leaves the transparency of the structure at `q` alone, unless
it is `setTransparency(v)` on `q`, which stores `v` rounded to `float`. -/
theorem World.getTransparency_step (w : World) (p q : Ptr) (op : Op) :
    ((w.step (p, op)).heap q).getTransparency
      = match op with
        | .setTransparency v => if q = p then narrowToFloat v else (w.heap q).getTransparency
        | _ => (w.heap q).getTransparency := by
  cases op with
  | setEnabled b =>
    simp only [World.step, Structure.getTransparency, World.heap_transparency_setEnabled]
  | enableIsolate =>
    simp only [World.step, World.enableIsolate, Structure.getTransparency,
      World.heap_transparency_setEnabled, World.heap_transparency_setEnabledEach]
  | setEnabledAllOfType b =>
    simp only [World.step, World.setEnabledAllOfType, Structure.getTransparency,
      World.heap_transparency_setEnabledEach]
  | refresh => rfl
  | setTransform m =>
    simp only [World.step, World.heap_onSelf]
    split <;> rename_i h
    · subst h; rfl
    · rfl
  | resetTransform =>
    simp only [World.step, World.heap_onSelf]
    split <;> rename_i h
    · subst h; rfl
    · rfl
  | centerBoundingBox bbox =>
    simp only [World.step, World.heap_onSelf]
    split <;> rename_i h
    · subst h; rfl
    · rfl
  | rescaleToUnit l =>
    simp only [World.step, World.heap_onSelf]
    split <;> rename_i h
    · subst h; rfl
    · rfl
  | setTransparency v =>
    simp only [World.step, World.heap_onSelfGlobals]
    split <;> rfl
  | setIgnoreSlicePlane n b =>
    simp only [World.step, World.heap_onSelfGlobals]
    split <;> rename_i h
    · subst h
      simp only [Structure.getTransparency, Structure.transparency_setIgnoreSlicePlane]
    · rfl

theorem World.run_cons (w : World) (c : Ptr × Op) (calls : List (Ptr × Op)) :
    w.run (c :: calls) = (w.step c).run calls := rfl

theorem World.getTransparency_run_range (self : Ptr) (calls : List (Ptr × Op)) (w : World)
    (hw : 0 ≤ (w.heap self).getTransparency ∧ (w.heap self).getTransparency ≤ 1)
    (hr : ∀ c ∈ calls, c.1 = self → c.2.transparencyInRange = true) :
    0 ≤ ((w.run calls).heap self).getTransparency
      ∧ ((w.run calls).heap self).getTransparency ≤ 1 := by
  induction calls generalizing w with
  | nil => exact hw
  | cons c l ih =>
    rw [World.run_cons]
    apply ih
    · obtain ⟨p, op⟩ := c
      rw [World.getTransparency_step]
      cases op with
      | setTransparency v =>
        by_cases h : self = p
        · have hv := hr (p, Op.setTransparency v) (List.mem_cons_self _ _) h.symm
          simp only [Op.transparencyInRange, decide_eq_true_eq] at hv
          simpa [h] using narrowToFloat_mem_unit v hv.1 hv.2
        · simpa [h] using hw
      | _ => exact hw
    · intro c' hc'
      exact hr c' (List.mem_cons_of_mem _ hc')

theorem Structure.construct_eq_ok (name_ subtypeName typeName : String) (s0 : Structure)
    (hc : Structure.construct name_ subtypeName typeName = .ok s0) :
    s0 = Structure.initial name_ subtypeName typeName := by
  unfold Structure.construct at hc
  split at hc
  · cases hc
  · cases hc
    rfl

/-- C6, as the code has it: `setTransparency(2)` on a fresh structure stores 2
(a value the `float` cell holds exactly, and nothing clamps it), so
`getTransparency()` is then outside `[0, 1]`. -/
theorem setTransparency_not_normalized :
    Structure.construct "y" "PointCloud" "Point Cloud" = .ok (exampleWorld.heap 1)
      ∧ ((exampleWorld.run [(1, Op.setTransparency 2)]).heap 1).getTransparency = 2
      ∧ ¬ (0 ≤ ((exampleWorld.run [(1, Op.setTransparency 2)]).heap 1).getTransparency
            ∧ ((exampleWorld.run [(1, Op.setTransparency 2)]).heap 1).getTransparency ≤ 1) := by
  have h : ((exampleWorld.run [(1, Op.setTransparency 2)]).heap 1).getTransparency = 2 := by
    show ((exampleWorld.step (1, Op.setTransparency 2)).heap 1).getTransparency = 2
    rw [World.getTransparency_step]
    exact narrowToFloat_two
  refine ⟨rfl, h, ?_⟩
  rw [h]
  norm_num

/-- C6 amended: in every state reached from a freshly constructed structure by
public calls (on it or on any other structure) whose `setTransparency` arguments
for this structure all lie in `[0, 1]`, `0 <= getTransparency() <= 1`. -/
theorem getTransparency_in_range (name_ subtypeName typeName : String) (s0 : Structure)
    (hc : Structure.construct name_ subtypeName typeName = .ok s0)
    (w : World) (self : Ptr) (hw : w.heap self = s0) (calls : List (Ptr × Op))
    (hr : ∀ c ∈ calls, c.1 = self → c.2.transparencyInRange = true) :
    0 ≤ ((w.run calls).heap self).getTransparency
      ∧ ((w.run calls).heap self).getTransparency ≤ 1 := by
  apply World.getTransparency_run_range self calls w _ hr
  rw [hw, Structure.construct_eq_ok _ _ _ _ hc]
  simp [Structure.getTransparency, Structure.initial, PersistentValue.get]

/-- Witness for the amended C6: the point cloud `y`, fresh at address 1, after
being isolated, made half transparent and re-centred. -/
theorem getTransparency_in_range_witness :
    Structure.construct "y" "PointCloud" "Point Cloud" = .ok (exampleWorld.heap 1)
      ∧ 0 ≤ ((exampleWorld.run [(1, Op.enableIsolate), (1, Op.setTransparency (1 / 2)),
                (1, Op.centerBoundingBox (⟨0, 0, 0⟩, ⟨2, 2, 2⟩))]).heap 1).getTransparency
      ∧ ((exampleWorld.run [(1, Op.enableIsolate), (1, Op.setTransparency (1 / 2)),
                (1, Op.centerBoundingBox (⟨0, 0, 0⟩, ⟨2, 2, 2⟩))]).heap 1).getTransparency ≤ 1 :=
  ⟨rfl,
    getTransparency_in_range "y" "PointCloud" "Point Cloud" (exampleWorld.heap 1) rfl
      exampleWorld 1 rfl
      [(1, Op.enableIsolate), (1, Op.setTransparency (1 / 2)),
        (1, Op.centerBoundingBox (⟨0, 0, 0⟩, ⟨2, 2, 2⟩))]
      (by
        intro c hc _
        simp only [List.mem_cons, List.mem_singleton, List.not_mem_nil, or_false] at hc
        rcases hc with rfl | rfl | rfl
        · rfl
        · simp only [Op.transparencyInRange, decide_eq_true_eq]
          norm_num
        · rfl)⟩

/-- C11: with `lengthScale() == L` and `L != 0`, `rescaleToUnit()` sets the
transform to `scale(1/L, 1/L, 1/L) * T0`; that matrix is the uniform scale with
`1/L` on the first three diagonal entries, and `1/L` is the factor that takes `L`
to one. -/
theorem rescaleToUnit_transform (s : Structure) (L : ℚ) (hL : L ≠ 0) :
    (s.rescaleToUnit L).getTransform = glm.scale 1 ⟨1 / L, 1 / L, 1 / L⟩ * s.getTransform
      ∧ glm.scale 1 ⟨1 / L, 1 / L, 1 / L⟩
          = !![1 / L, 0, 0, 0;
               0, 1 / L, 0, 0;
               0, 0, 1 / L, 0;
               0, 0, 0, 1]
      ∧ (1 / L) * L = 1 := by
  refine ⟨?_, ?_, ?_⟩
  · simp [Structure.rescaleToUnit, Structure.getTransform, Structure.updateStructureExtents,
      PersistentValue.set, PersistentValue.get]
  · ext i j
    fin_cases i <;> fin_cases j <;>
      simp [glm.scale, Matrix.one_apply, Matrix.vecHead, Matrix.vecTail]
  · field_simp

/-- Witness for C11 with characteristic length 4. -/
theorem rescaleToUnit_transform_witness :
    (4 : ℚ) ≠ 0
      ∧ ((exampleCloud "cloud1").rescaleToUnit 4).getTransform
          = glm.scale 1 ⟨1 / 4, 1 / 4, 1 / 4⟩ * (exampleCloud "cloud1").getTransform :=
  ⟨by norm_num, (rescaleToUnit_transform (exampleCloud "cloud1") 4 (by norm_num)).1⟩

/-! ### Construction and name validation -/

theorem Structure.construct_of_validateName_ok (name_ subtypeName typeName : String)
    (h : validateName name_ = .ok ()) :
    Structure.construct name_ subtypeName typeName
      = .ok (Structure.initial name_ subtypeName typeName) := by
  have hn : (Structure.initial name_ subtypeName typeName).name = name_ := rfl
  unfold Structure.construct
  rw [hn, h]

theorem Structure.construct_of_validateName_error (name_ subtypeName typeName e : String)
    (h : validateName name_ = .error e) :
    Structure.construct name_ subtypeName typeName = .error e := by
  have hn : (Structure.initial name_ subtypeName typeName).name = name_ := rfl
  unfold Structure.construct
  rw [hn, h]

/-- C12: constructing a structure with a name that contains `#` fails, and with a
name that does not contain `#` it succeeds, giving the initialised structure. -/
theorem construct_validates_name (name_ subtypeName typeName : String) :
    ('#' ∈ name_.data → ∃ e, Structure.construct name_ subtypeName typeName = .error e)
      ∧ ('#' ∉ name_.data →
          Structure.construct name_ subtypeName typeName
            = .ok (Structure.initial name_ subtypeName typeName)) := by
  constructor
  · intro h
    refine ⟨"name must not contain the delimiter character", ?_⟩
    apply Structure.construct_of_validateName_error
    unfold validateName
    rw [if_pos h]
  · intro h
    apply Structure.construct_of_validateName_ok
    unfold validateName
    rw [if_neg h]

/-- Witness for C12: the name `cloud#1` is refused, the name `cloud1` accepted. -/
theorem construct_validates_name_witness :
    ('#' ∈ "cloud#1".data ∧ ∃ e, Structure.construct "cloud#1" "PointCloud" "Point Cloud" = .error e)
      ∧ ('#' ∉ "cloud1".data
          ∧ Structure.construct "cloud1" "PointCloud" "Point Cloud"
              = .ok (Structure.initial "cloud1" "PointCloud" "Point Cloud")) :=
  ⟨⟨by decide, (construct_validates_name "cloud#1" "PointCloud" "Point Cloud").1 (by decide)⟩,
    ⟨by decide, (construct_validates_name "cloud1" "PointCloud" "Point Cloud").2 (by decide)⟩⟩

/-- C13, as the code has it: a type tag containing `#` together with a valid name
is accepted by the constructor. -/
theorem construct_accepts_delimiter_in_typeTag :
    '#' ∈ "Point#Cloud".data
      ∧ Structure.construct "cloud1" "Point#Cloud" "Point Cloud"
          = .ok (Structure.initial "cloud1" "Point#Cloud" "Point Cloud")
      ∧ ¬ ∃ e, Structure.construct "cloud1" "Point#Cloud" "Point Cloud" = .error e := by
  refine ⟨by decide, rfl, ?_⟩
  rintro ⟨e, he⟩
  have hok : Structure.construct "cloud1" "Point#Cloud" "Point Cloud"
      = .ok (Structure.initial "cloud1" "Point#Cloud" "Point Cloud") := rfl
  rw [hok] at he
  cases he

/-- C13 amended: the constructor validates the name only.  Whether construction
fails is the same for every type tag, and with a name free of `#` it succeeds
whatever the type tag is, a tag containing `#` included. -/
theorem construct_ignores_typeTag (name_ subtypeName subtypeName2 typeName : String) :
    ((∃ e, Structure.construct name_ subtypeName typeName = .error e)
        ↔ (∃ e, Structure.construct name_ subtypeName2 typeName = .error e))
      ∧ ('#' ∉ name_.data →
          Structure.construct name_ subtypeName typeName
            = .ok (Structure.initial name_ subtypeName typeName)) := by
  constructor
  · cases hv : validateName name_ with
    | error e =>
      rw [Structure.construct_of_validateName_error _ _ _ e hv,
        Structure.construct_of_validateName_error _ _ _ e hv]
    | ok u =>
      cases u
      rw [Structure.construct_of_validateName_ok _ _ _ hv,
        Structure.construct_of_validateName_ok _ _ _ hv]
      constructor
      · rintro ⟨e, he⟩
        cases he
      · rintro ⟨e, he⟩
        cases he
  · intro h
    apply Structure.construct_of_validateName_ok
    unfold validateName
    rw [if_neg h]

/-- Witness for the amended C13: the valid name `cloud1` under the type tag
`Point#Cloud`. -/
theorem construct_ignores_typeTag_witness :
    '#' ∉ "cloud1".data
      ∧ Structure.construct "cloud1" "Point#Cloud" "Point Cloud"
          = .ok (Structure.initial "cloud1" "Point#Cloud" "Point Cloud") :=
  ⟨by decide,
    (construct_ignores_typeTag "cloud1" "Point#Cloud" "PointCloud" "Point Cloud").2 (by decide)⟩

/-- C17: when `getIgnoreSlicePlane(name) == newValue`, `setIgnoreSlicePlane(name,
newValue)` changes nothing, neither the structure (ignore-set and notification
count included) nor the globals (no redraw request); in every other case exactly
one change notification and one redraw request are issued. -/
theorem setIgnoreSlicePlane_noop_or_notify (s : Structure) (name : String) (newValue : Bool)
    (g : Globals) :
    (s.getIgnoreSlicePlane name = newValue → s.setIgnoreSlicePlane name newValue g = (s, g))
      ∧ (s.getIgnoreSlicePlane name ≠ newValue →
          (s.setIgnoreSlicePlane name newValue g).1.ignoredSlicePlaneNames.notifications
              = s.ignoredSlicePlaneNames.notifications + 1
            ∧ (s.setIgnoreSlicePlane name newValue g).2.redrawRequests
              = g.redrawRequests + 1) := by
  constructor
  · intro h
    unfold Structure.setIgnoreSlicePlane
    rw [if_pos h]
  · intro h
    unfold Structure.setIgnoreSlicePlane
    rw [if_neg h]
    exact ⟨rfl, rfl⟩

/-- Witness for C17 on a fresh point cloud: un-ignoring an absent plane is a
no-op, ignoring it notifies and requests a redraw. -/
theorem setIgnoreSlicePlane_noop_or_notify_witness :
    ((exampleCloud "cloud1").getIgnoreSlicePlane "p" = false
        ∧ (exampleCloud "cloud1").setIgnoreSlicePlane "p" false exampleGlobals
            = (exampleCloud "cloud1", exampleGlobals))
      ∧ ((exampleCloud "cloud1").getIgnoreSlicePlane "p" ≠ true
        ∧ ((exampleCloud "cloud1").setIgnoreSlicePlane "p" true
              exampleGlobals).1.ignoredSlicePlaneNames.notifications
            = (exampleCloud "cloud1").ignoredSlicePlaneNames.notifications + 1
        ∧ ((exampleCloud "cloud1").setIgnoreSlicePlane "p" true exampleGlobals).2.redrawRequests
            = exampleGlobals.redrawRequests + 1) :=
  ⟨⟨by decide,
      (setIgnoreSlicePlane_noop_or_notify (exampleCloud "cloud1") "p" false exampleGlobals).1
        (by decide)⟩,
    ⟨by decide,
      (setIgnoreSlicePlane_noop_or_notify (exampleCloud "cloud1") "p" true exampleGlobals).2
        (by decide)⟩⟩

/-! ### Helper lemmas: what the enable loops leave alone -/

theorem Structure.sameButEnabled_refl (s : Structure) : Structure.sameButEnabled s s :=
  ⟨rfl, rfl, rfl, rfl, rfl, rfl, rfl⟩

theorem Structure.sameButEnabled_trans {a b c : Structure} (hab : Structure.sameButEnabled a b)
    (hbc : Structure.sameButEnabled b c) : Structure.sameButEnabled a c := by
  obtain ⟨h1, h2, h3, h4, h5, h6, h7⟩ := hab
  obtain ⟨k1, k2, k3, k4, k5, k6, k7⟩ := hbc
  exact ⟨h1.trans k1, h2.trans k2, h3.trans k3, h4.trans k4, h5.trans k5, h6.trans k6,
    h7.trans k7⟩

theorem Structure.sameButEnabled_setEnabled (s : Structure) (b : Bool) :
    Structure.sameButEnabled (s.setEnabled b) s := by
  unfold Structure.setEnabled
  split
  · exact Structure.sameButEnabled_refl s
  · exact ⟨rfl, rfl, rfl, rfl, rfl, rfl, rfl⟩

theorem World.heap_sameButEnabled_setEnabled (w : World) (p q : Ptr) (b : Bool) :
    Structure.sameButEnabled ((w.setEnabled p b).heap q) (w.heap q) := by
  rw [World.heap_setEnabled]
  by_cases h : q = p
  · subst h
    rw [if_pos rfl]
    exact Structure.sameButEnabled_setEnabled _ b
  · rw [if_neg h]
    exact Structure.sameButEnabled_refl _

theorem World.sameButEnabled_setEnabledEach (bucket : List (String × Ptr)) (b : Bool) (w : World)
    (q : Ptr) : Structure.sameButEnabled ((w.setEnabledEach bucket b).heap q) (w.heap q) := by
  induction bucket generalizing w with
  | nil => exact Structure.sameButEnabled_refl _
  | cons e l ih =>
    rw [World.setEnabledEach_cons]
    exact Structure.sameButEnabled_trans (ih _) (World.heap_sameButEnabled_setEnabled w e.2 q b)

theorem World.heap_setEnabledEach_of_not_mem (bucket : List (String × Ptr)) (b : Bool) (w : World)
    (q : Ptr) (h : q ∉ bucket.map Prod.snd) : (w.setEnabledEach bucket b).heap q = w.heap q := by
  induction bucket generalizing w with
  | nil => rfl
  | cons e l ih =>
    rw [List.map_cons, List.mem_cons, not_or] at h
    rw [World.setEnabledEach_cons, ih _ h.2, World.heap_setEnabled, if_neg h.1]

theorem World.sameButEnabled_enableIsolate (w : World) (self q : Ptr) :
    Structure.sameButEnabled ((w.enableIsolate self).heap q) (w.heap q) := by
  unfold World.enableIsolate
  exact Structure.sameButEnabled_trans (World.heap_sameButEnabled_setEnabled _ self q true)
    (World.sameButEnabled_setEnabledEach _ false _ q)

theorem World.sameButEnabled_setEnabledAllOfType (w : World) (self q : Ptr) (b : Bool) :
    Structure.sameButEnabled ((w.setEnabledAllOfType self b).heap q) (w.heap q) := by
  unfold World.setEnabledAllOfType
  exact World.sameButEnabled_setEnabledEach _ b _ q

theorem World.heap_enableIsolate_of_not_mem (w : World) (self q : Ptr) (hq : q ≠ self)
    (h : q ∉ (w.structures.bucket (w.heap self).typeName).map Prod.snd) :
    (w.enableIsolate self).heap q = w.heap q := by
  unfold World.enableIsolate
  simp only [World.heap_setEnabled, if_neg hq, Registry.bucket_touch]
  exact World.heap_setEnabledEach_of_not_mem _ false _ q h

theorem World.heap_setEnabledAllOfType_of_not_mem (w : World) (self q : Ptr) (b : Bool)
    (h : q ∉ (w.structures.bucket (w.heap self).typeName).map Prod.snd) :
    (w.setEnabledAllOfType self b).heap q = w.heap q := by
  unfold World.setEnabledAllOfType
  simp only [Registry.bucket_touch]
  exact World.heap_setEnabledEach_of_not_mem _ b _ q h

theorem World.not_mem_bucket_of_wellFormed (w : World) (hwf : w.registryWellFormed)
    (self q : Ptr) (key name : String) (hkey : key ≠ (w.heap self).typeName)
    (hreg : (name, q) ∈ w.structures.bucket key) :
    q ≠ self ∧ q ∉ (w.structures.bucket (w.heap self).typeName).map Prod.snd := by
  have hty : (w.heap q).typeName = key := hwf key name q hreg
  constructor
  · intro h
    subst h
    exact hkey hty.symm
  · intro hmem
    obtain ⟨e, he, hsnd⟩ := List.mem_map.mp hmem
    have heq : e = (e.1, q) := by rw [← hsnd]
    rw [heq] at he
    exact hkey ((hwf _ e.1 q he).symm.trans hty).symm

theorem Registry.bucket_touch_any (r : Registry) (key other : String) :
    Registry.bucket (Registry.touch r key) other = Registry.bucket r other := by
  unfold Registry.touch Registry.bucket
  split
  · rfl
  · cases h : List.lookup other r with
    | some bkt => simp [List.lookup_append, h]
    | none =>
      by_cases hk : other = key
      · subst hk
        simp [List.lookup_append, h, List.lookup]
      · have hb : (other == key) = false := by simpa using hk
        simp [List.lookup_append, h, List.lookup, hb]

theorem World.enableIsolate_structures (w : World) (self : Ptr) :
    (w.enableIsolate self).structures = w.structures.touch (w.heap self).typeName
      ∧ (w.enableIsolate self).globals = w.globals := by
  unfold World.enableIsolate
  exact World.setEnabledEach_structures _ false _

theorem World.setEnabledAllOfType_structures (w : World) (self : Ptr) (b : Bool) :
    (w.setEnabledAllOfType self b).structures = w.structures.touch (w.heap self).typeName
      ∧ (w.setEnabledAllOfType self b).globals = w.globals := by
  unfold World.setEnabledAllOfType
  exact World.setEnabledEach_structures _ b _

/-- C20: `enableIsolate()` and `setEnabledAllOfType(b)` leave the transform, the
transparency and the ignore-set of every structure `q` as they were; a structure
that is neither the caller nor in the bucket of the caller's type is left
untouched altogether; in a registry where every structure is listed under its
own type name, a structure registered under a different type name keeps its
enabled flag; and the globals and the content of every registry bucket are as
before. -/
theorem enable_ops_frame (w : World) (self q : Ptr) (b : Bool) :
    (((w.enableIsolate self).heap q).getTransform = (w.heap q).getTransform
        ∧ ((w.enableIsolate self).heap q).transparency = (w.heap q).transparency
        ∧ ((w.enableIsolate self).heap q).ignoredSlicePlaneNames
            = (w.heap q).ignoredSlicePlaneNames)
      ∧ (((w.setEnabledAllOfType self b).heap q).getTransform = (w.heap q).getTransform
        ∧ ((w.setEnabledAllOfType self b).heap q).transparency = (w.heap q).transparency
        ∧ ((w.setEnabledAllOfType self b).heap q).ignoredSlicePlaneNames
            = (w.heap q).ignoredSlicePlaneNames)
      ∧ (q ≠ self → q ∉ (w.structures.bucket (w.heap self).typeName).map Prod.snd →
          (w.enableIsolate self).heap q = w.heap q
            ∧ (w.setEnabledAllOfType self b).heap q = w.heap q)
      ∧ (w.registryWellFormed → ∀ key name : String, key ≠ (w.heap self).typeName →
          (name, q) ∈ w.structures.bucket key →
          ((w.enableIsolate self).heap q).isEnabled = (w.heap q).isEnabled
            ∧ ((w.setEnabledAllOfType self b).heap q).isEnabled = (w.heap q).isEnabled)
      ∧ ((w.enableIsolate self).globals = w.globals
        ∧ (w.setEnabledAllOfType self b).globals = w.globals)
      ∧ (∀ key : String,
          (w.enableIsolate self).structures.bucket key = w.structures.bucket key
            ∧ (w.setEnabledAllOfType self b).structures.bucket key = w.structures.bucket key) := by
  refine ⟨?_, ?_, ?_, ?_, ?_, ?_⟩
  · obtain ⟨_, _, h3, h4, _, h6, _⟩ := World.sameButEnabled_enableIsolate w self q
    exact ⟨by rw [Structure.getTransform, h3]; rfl, h4, h6⟩
  · obtain ⟨_, _, h3, h4, _, h6, _⟩ := World.sameButEnabled_setEnabledAllOfType w self q b
    exact ⟨by rw [Structure.getTransform, h3]; rfl, h4, h6⟩
  · intro hq hmem
    exact ⟨World.heap_enableIsolate_of_not_mem w self q hq hmem,
      World.heap_setEnabledAllOfType_of_not_mem w self q b hmem⟩
  · intro hwf key name hkey hreg
    obtain ⟨hq, hmem⟩ := World.not_mem_bucket_of_wellFormed w hwf self q key name hkey hreg
    rw [World.heap_enableIsolate_of_not_mem w self q hq hmem,
      World.heap_setEnabledAllOfType_of_not_mem w self q b hmem]
    exact ⟨rfl, rfl⟩
  · exact ⟨(World.enableIsolate_structures w self).2,
      (World.setEnabledAllOfType_structures w self b).2⟩
  · intro key
    rw [(World.enableIsolate_structures w self).1,
      (World.setEnabledAllOfType_structures w self b).1]
    exact ⟨Registry.bucket_touch_any _ _ key, Registry.bucket_touch_any _ _ key⟩

theorem exampleTwoTypes_wellFormed : exampleTwoTypes.registryWellFormed := by
  intro key name q h
  by_cases h1 : key = "Point Cloud"
  · subst h1
    have hb : exampleTwoTypes.structures.bucket "Point Cloud" = [("x", 0), ("y", 1)] := by
      decide
    rw [hb] at h
    simp only [List.mem_cons, Prod.mk.injEq, List.mem_singleton, List.not_mem_nil,
      or_false] at h
    rcases h with ⟨_, rfl⟩ | ⟨_, rfl⟩ <;> rfl
  · by_cases h2 : key = "Surface Mesh"
    · subst h2
      have hb : exampleTwoTypes.structures.bucket "Surface Mesh" = [("m", 2)] := by decide
      rw [hb] at h
      simp only [List.mem_singleton, Prod.mk.injEq] at h
      obtain ⟨_, rfl⟩ := h
      rfl
    · have hb : exampleTwoTypes.structures.bucket key = [] := by
        have e1 : (key == "Point Cloud") = false := by simpa using h1
        have e2 : (key == "Surface Mesh") = false := by simpa using h2
        simp [Registry.bucket, exampleTwoTypes, List.lookup, e1, e2]
      rw [hb] at h
      cases h

/-- Witness for C20: the point cloud `x` (address 0) calls, the mesh `m`
(address 2) is registered under another type name and keeps its state. -/
theorem enable_ops_frame_witness :
    ((2 : Ptr) ≠ 0
        ∧ (2 : Ptr) ∉ (exampleTwoTypes.structures.bucket
            (exampleTwoTypes.heap 0).typeName).map Prod.snd
        ∧ (exampleTwoTypes.enableIsolate 0).heap 2 = exampleTwoTypes.heap 2
        ∧ (exampleTwoTypes.setEnabledAllOfType 0 false).heap 2 = exampleTwoTypes.heap 2)
      ∧ (exampleTwoTypes.registryWellFormed
        ∧ "Surface Mesh" ≠ (exampleTwoTypes.heap 0).typeName
        ∧ ("m", 2) ∈ exampleTwoTypes.structures.bucket "Surface Mesh"
        ∧ ((exampleTwoTypes.enableIsolate 0).heap 2).isEnabled
            = (exampleTwoTypes.heap 2).isEnabled
        ∧ ((exampleTwoTypes.setEnabledAllOfType 0 false).heap 2).isEnabled
            = (exampleTwoTypes.heap 2).isEnabled) :=
  ⟨⟨by decide, by decide,
      (enable_ops_frame exampleTwoTypes 0 2 false).2.2.1 (by decide) (by decide)⟩,
    ⟨exampleTwoTypes_wellFormed, by decide, by decide,
      (enable_ops_frame exampleTwoTypes 0 2 false).2.2.2.1 exampleTwoTypes_wellFormed
        "Surface Mesh" "m" (by decide) (by decide)⟩⟩

/-! ### Helper lemmas: the ignore-set along public calls -/

theorem Structure.getIgnoreSlicePlane_congr {a b : Structure}
    (h : a.ignoredSlicePlaneNames = b.ignoredSlicePlaneNames) (name : String) :
    a.getIgnoreSlicePlane name = b.getIgnoreSlicePlane name := by
  unfold Structure.getIgnoreSlicePlane
  rw [h]

theorem Structure.getIgnoreSlicePlane_setIgnoreSlicePlane (s : Structure) (name other : String)
    (b : Bool) (g : Globals) (h : s.getIgnoreSlicePlane name = true) :
    (s.setIgnoreSlicePlane other b g).1.getIgnoreSlicePlane name = true := by
  rw [Structure.getIgnoreSlicePlane_iff] at h ⊢
  rw [Structure.names_setIgnoreSlicePlane]
  split
  · exact h
  · exact List.mem_append_left _ h

theorem World.getIgnoreSlicePlane_step (w : World) (p q : Ptr) (op : Op) (name : String)
    (h : (w.heap q).getIgnoreSlicePlane name = true) :
    ((w.step (p, op)).heap q).getIgnoreSlicePlane name = true := by
  cases op with
  | setEnabled b =>
    rw [← h]
    exact Structure.getIgnoreSlicePlane_congr (World.heap_sameButEnabled_setEnabled w p q b).2.2.2.2.2.1
      name
  | enableIsolate =>
    rw [← h]
    exact Structure.getIgnoreSlicePlane_congr (World.sameButEnabled_enableIsolate w p q).2.2.2.2.2.1
      name
  | setEnabledAllOfType b =>
    rw [← h]
    exact Structure.getIgnoreSlicePlane_congr
      (World.sameButEnabled_setEnabledAllOfType w p q b).2.2.2.2.2.1 name
  | refresh => exact h
  | setTransform m =>
    simp only [World.step, World.heap_onSelf]
    split <;> rename_i hq
    · subst hq; exact h
    · exact h
  | resetTransform =>
    simp only [World.step, World.heap_onSelf]
    split <;> rename_i hq
    · subst hq; exact h
    · exact h
  | centerBoundingBox bbox =>
    simp only [World.step, World.heap_onSelf]
    split <;> rename_i hq
    · subst hq; exact h
    · exact h
  | rescaleToUnit l =>
    simp only [World.step, World.heap_onSelf]
    split <;> rename_i hq
    · subst hq; exact h
    · exact h
  | setTransparency v =>
    simp only [World.step, World.heap_onSelfGlobals]
    split <;> rename_i hq
    · subst hq; exact h
    · exact h
  | setIgnoreSlicePlane n b =>
    simp only [World.step, World.heap_onSelfGlobals]
    split <;> rename_i hq
    · subst hq
      exact Structure.getIgnoreSlicePlane_setIgnoreSlicePlane _ name n b _ h
    · exact h

theorem World.getIgnoreSlicePlane_run (q : Ptr) (name : String) (calls : List (Ptr × Op))
    (w : World) (h : (w.heap q).getIgnoreSlicePlane name = true) :
    ((w.run calls).heap q).getIgnoreSlicePlane name = true := by
  induction calls generalizing w with
  | nil => exact h
  | cons c l ih =>
    rw [World.run_cons]
    exact ih _ (World.getIgnoreSlicePlane_step w c.1 q c.2 name h)

/-- C18: once `getIgnoreSlicePlane(name)` is true it stays true: after
`setIgnoreSlicePlane(name, false)`, after any further sequence of public calls
following it, and after any sequence of public calls at all (on this or on any
other structure), `setIgnoreSlicePlane` calls included. -/
theorem ignored_plane_stays_ignored (w : World) (self : Ptr) (name : String)
    (calls : List (Ptr × Op)) (h : (w.heap self).getIgnoreSlicePlane name = true) :
    ((w.step (self, Op.setIgnoreSlicePlane name false)).heap self).getIgnoreSlicePlane name = true
      ∧ (((w.step (self, Op.setIgnoreSlicePlane name false)).run calls).heap
          self).getIgnoreSlicePlane name = true
      ∧ ((w.run calls).heap self).getIgnoreSlicePlane name = true :=
  ⟨World.getIgnoreSlicePlane_step w self self _ name h,
    World.getIgnoreSlicePlane_run self name calls _
      (World.getIgnoreSlicePlane_step w self self _ name h),
    World.getIgnoreSlicePlane_run self name calls w h⟩

/-- Witness for C18: the point cloud `y` ignores plane `p`, then is asked twice to
stop ignoring it. -/
theorem ignored_plane_stays_ignored_witness :
    ((exampleWorld.step (1, Op.setIgnoreSlicePlane "p" true)).heap 1).getIgnoreSlicePlane "p"
        = true
      ∧ ((((exampleWorld.step (1, Op.setIgnoreSlicePlane "p" true)).step
            (1, Op.setIgnoreSlicePlane "p" false)).run
            [(1, Op.setIgnoreSlicePlane "p" false)]).heap 1).getIgnoreSlicePlane "p" = true :=
  ⟨by decide,
    (ignored_plane_stays_ignored (exampleWorld.step (1, Op.setIgnoreSlicePlane "p" true)) 1 "p"
      [(1, Op.setIgnoreSlicePlane "p" false)] (by decide)).2.1⟩

/-! ### Persistence keys -/

theorem List.eq_of_append_cons_eq {α : Type} (c : α) (a a2 b b2 : List α) (hb : c ∉ b)
    (hb2 : c ∉ b2) (h : a ++ c :: b = a2 ++ c :: b2) : a = a2 ∧ b = b2 := by
  induction a generalizing a2 with
  | nil =>
    cases a2 with
    | nil =>
      simp only [List.nil_append, List.cons.injEq, true_and] at h
      exact ⟨rfl, h⟩
    | cons y ys =>
      simp only [List.nil_append, List.cons_append, List.cons.injEq] at h
      exact absurd (h.2 ▸ List.mem_append_right ys (List.mem_cons_self c b2)) hb
  | cons x xs ih =>
    cases a2 with
    | nil =>
      simp only [List.nil_append, List.cons_append, List.cons.injEq] at h
      exact absurd (h.2 ▸ List.mem_append_right xs (List.mem_cons_self c b)) hb2
    | cons y ys =>
      simp only [List.cons_append, List.cons.injEq] at h
      obtain ⟨hxs, hbb⟩ := ih ys h.2
      exact ⟨by rw [h.1, hxs], hbb⟩

theorem persistedKey_data (typeTag name propertyKey : String) :
    (persistedKey typeTag name propertyKey).data
      = (typeTag.data ++ '#' :: name.data) ++ '#' :: propertyKey.data := by
  simp [persistedKey, String.data_append]

theorem propertyKeys_no_delimiter (k : String) (hk : k ∈ propertyKeys) : '#' ∉ k.data := by
  simp only [propertyKeys, List.mem_cons, List.mem_singleton, List.not_mem_nil, or_false] at hk
  rcases hk with rfl | rfl | rfl | rfl | rfl <;> decide

/-- C19: the five cells of a structure are persisted under the keys
`typeTag#name#propertyKey`, which is `uniquePrefix()` followed by the property key
(so `PointCloud#cloud1#enabled` for the enabled flag of `cloud1`), and for names
free of `#` two such keys are equal only when type tag, name and property key all
agree, whatever the type tags are. -/
theorem persistedKey_no_collision (t1 t2 n1 n2 k1 k2 : String) (s : Structure) :
    (Structure.initial n1 t1 s.typeName).persistenceKeys = propertyKeys.map (persistedKey t1 n1)
      ∧ persistedKey s.typeName s.name k1 = s.uniquePrefix ++ k1
      ∧ (Structure.initial "cloud1" "PointCloud" "Point Cloud").enabled.name
          = "PointCloud#cloud1#enabled"
      ∧ ('#' ∉ n1.data → '#' ∉ n2.data → k1 ∈ propertyKeys → k2 ∈ propertyKeys →
          persistedKey t1 n1 k1 = persistedKey t2 n2 k2 → t1 = t2 ∧ n1 = n2 ∧ k1 = k2) := by
  refine ⟨?_, rfl, by decide, ?_⟩
  · simp only [Structure.persistenceKeys, Structure.initial, propertyKeys, persistedKey,
      List.map_cons, List.map_nil, List.cons.injEq, and_true]
    refine ⟨?_, ?_, ?_, ?_, ?_⟩ <;>
      · apply String.ext
        simp [String.data_append]
  · intro h1 h2 hk1 hk2 h
    have hd := congrArg String.data h
    rw [persistedKey_data, persistedKey_data] at hd
    obtain ⟨hpre, hk⟩ := List.eq_of_append_cons_eq '#' _ _ _ _
      (propertyKeys_no_delimiter k1 hk1) (propertyKeys_no_delimiter k2 hk2) hd
    obtain ⟨ht, hn⟩ := List.eq_of_append_cons_eq '#' _ _ _ _ h1 h2 hpre
    exact ⟨String.ext ht, String.ext hn, String.ext hk⟩

/-- Witness for C19: a type tag that itself contains `#`, with the name `cloud1`
and the key `transparency`. -/
theorem persistedKey_no_collision_witness :
    ('#' ∉ "cloud1".data ∧ "transparency" ∈ propertyKeys
        ∧ persistedKey "Point#Cloud" "cloud1" "transparency"
            = persistedKey "Point#Cloud" "cloud1" "transparency")
      ∧ ("Point#Cloud" = "Point#Cloud" ∧ "cloud1" = "cloud1"
        ∧ "transparency" = "transparency") :=
  ⟨⟨by decide, by decide, rfl⟩,
    (persistedKey_no_collision "Point#Cloud" "Point#Cloud" "cloud1" "cloud1" "transparency"
      "transparency" (exampleCloud "cloud1")).2.2.2 (by decide) (by decide) (by decide)
      (by decide) rfl⟩

/-! ### Helper lemmas: the writes of `setTransformUniforms` in closed form -/

theorem ShaderProgram.hasUniform_mk (u t b : List String) (ws : List ProgramWrite)
    (name : String) : ShaderProgram.hasUniform ⟨u, t, b, ws⟩ name = u.contains name := rfl

theorem ShaderProgram.hasTexture_mk (u t b : List String) (ws : List ProgramWrite)
    (name : String) : ShaderProgram.hasTexture ⟨u, t, b, ws⟩ name = t.contains name := rfl

theorem ShaderProgram.textureIsSet_mk (u t b : List String) (ws : List ProgramWrite)
    (name : String) : ShaderProgram.textureIsSet ⟨u, t, b, ws⟩ name = b.contains name := rfl

theorem ShaderProgram.ite_setUniform (p : ShaderProgram) (c : Bool) (name : String)
    (value : UniformValue) :
    (if c = true then p.setUniform name value else p)
      = { uniforms := p.uniforms, textures := p.textures, boundTextures := p.boundTextures,
          writes := p.writes ++ (if c = true then [ProgramWrite.uniform name value] else []) } := by
  cases c <;> simp [ShaderProgram.setUniform]

theorem ShaderProgram.ite_setTextureFromBuffer (p : ShaderProgram) (c : Bool) (name : String) :
    (if c = true then p.setTextureFromBuffer name else p)
      = { uniforms := p.uniforms, textures := p.textures,
          boundTextures := if c = true then name :: p.boundTextures else p.boundTextures,
          writes := p.writes ++ (if c = true then [ProgramWrite.texture name] else []) } := by
  cases c <;> simp [ShaderProgram.setTextureFromBuffer]

theorem ShaderProgram.foldl_setSceneObjectUniforms (f : SlicePlane → Bool)
    (planes : List SlicePlane) (p : ShaderProgram) :
    planes.foldl (fun q sp => sp.setSceneObjectUniforms q (f sp)) p
      = { uniforms := p.uniforms, textures := p.textures, boundTextures := p.boundTextures,
          writes := p.writes ++ planes.map (fun sp => ProgramWrite.slicePlane sp.name (f sp)) } := by
  induction planes generalizing p with
  | nil => simp
  | cons sp l ih =>
    rw [List.foldl_cons, ih]
    simp [SlicePlane.setSceneObjectUniforms]

theorem Structure.setTransformUniforms_closed (s : Structure) (ctx : RenderContext)
    (p : ShaderProgram) :
    s.setTransformUniforms ctx p
      = { uniforms := p.uniforms
          textures := p.textures
          boundTextures :=
            if (ctx.transparencyEnabled && p.hasTexture "t_minDepth"
                && !p.textureIsSet "t_minDepth") = true
            then "t_minDepth" :: p.boundTextures else p.boundTextures
          writes := p.writes ++
            ([ProgramWrite.uniform "u_modelView" (UniformValue.mat4 (s.getModelView ctx)),
              ProgramWrite.uniform "u_projMatrix"
                (UniformValue.mat4 ctx.cameraPerspectiveMatrix)]
            ++ (if (ctx.transparencyEnabled && p.hasUniform "u_transparency") = true then
                  [ProgramWrite.uniform "u_transparency"
                    (UniformValue.scalar s.transparency.get)] else [])
            ++ (if (ctx.transparencyEnabled && p.hasUniform "u_viewportDim") = true then
                  [ProgramWrite.uniform "u_viewportDim"
                    (UniformValue.vec2 ctx.currentViewport.z ctx.currentViewport.w)] else [])
            ++ (if (ctx.transparencyEnabled && p.hasTexture "t_minDepth"
                    && !p.textureIsSet "t_minDepth") = true then
                  [ProgramWrite.texture "t_minDepth"] else [])
            ++ ctx.slicePlanes.map
                (fun sp => ProgramWrite.slicePlane sp.name (s.getIgnoreSlicePlane sp.name))
            ++ (if p.hasUniform "u_viewport_worldPos" = true then
                  [ProgramWrite.uniform "u_viewport_worldPos"
                    (UniformValue.vec4 ctx.currentViewport)] else [])
            ++ (if p.hasUniform "u_invProjMatrix_worldPos" = true then
                  [ProgramWrite.uniform "u_invProjMatrix_worldPos"
                    (UniformValue.mat4 (glm.inverse ctx.cameraPerspectiveMatrix))] else [])
            ++ (if p.hasUniform "u_invViewMatrix_worldPos" = true then
                  [ProgramWrite.uniform "u_invViewMatrix_worldPos"
                    (UniformValue.mat4 (glm.inverse ctx.cameraViewMatrix))] else [])) } := by
  unfold Structure.setTransformUniforms
  cases hte : ctx.transparencyEnabled
  · simp only [ShaderProgram.ite_setUniform, ShaderProgram.foldl_setSceneObjectUniforms,
      ShaderProgram.hasUniform_mk, Bool.false_eq_true, if_false]
    simp [ShaderProgram.setUniform, ShaderProgram.hasUniform]
  · simp only [ShaderProgram.ite_setUniform, ShaderProgram.ite_setTextureFromBuffer,
      ShaderProgram.foldl_setSceneObjectUniforms, ShaderProgram.hasUniform_mk,
      ShaderProgram.hasTexture_mk, ShaderProgram.textureIsSet_mk, if_true, Bool.true_and]
    simp [ShaderProgram.setUniform, ShaderProgram.hasUniform, ShaderProgram.hasTexture,
      ShaderProgram.textureIsSet]

theorem Structure.setTransformUniforms_writesSince (s : Structure) (ctx : RenderContext)
    (p : ShaderProgram) :
    (s.setTransformUniforms ctx p).writesSince p.writes.length
      = ([ProgramWrite.uniform "u_modelView" (UniformValue.mat4 (s.getModelView ctx)),
              ProgramWrite.uniform "u_projMatrix"
                (UniformValue.mat4 ctx.cameraPerspectiveMatrix)]
            ++ (if (ctx.transparencyEnabled && p.hasUniform "u_transparency") = true then
                  [ProgramWrite.uniform "u_transparency"
                    (UniformValue.scalar s.transparency.get)] else [])
            ++ (if (ctx.transparencyEnabled && p.hasUniform "u_viewportDim") = true then
                  [ProgramWrite.uniform "u_viewportDim"
                    (UniformValue.vec2 ctx.currentViewport.z ctx.currentViewport.w)] else [])
            ++ (if (ctx.transparencyEnabled && p.hasTexture "t_minDepth"
                    && !p.textureIsSet "t_minDepth") = true then
                  [ProgramWrite.texture "t_minDepth"] else [])
            ++ ctx.slicePlanes.map
                (fun sp => ProgramWrite.slicePlane sp.name (s.getIgnoreSlicePlane sp.name))
            ++ (if p.hasUniform "u_viewport_worldPos" = true then
                  [ProgramWrite.uniform "u_viewport_worldPos"
                    (UniformValue.vec4 ctx.currentViewport)] else [])
            ++ (if p.hasUniform "u_invProjMatrix_worldPos" = true then
                  [ProgramWrite.uniform "u_invProjMatrix_worldPos"
                    (UniformValue.mat4 (glm.inverse ctx.cameraPerspectiveMatrix))] else [])
            ++ (if p.hasUniform "u_invViewMatrix_worldPos" = true then
                  [ProgramWrite.uniform "u_invViewMatrix_worldPos"
                    (UniformValue.mat4 (glm.inverse ctx.cameraViewMatrix))] else [])) := by
  rw [Structure.setTransformUniforms_closed]
  simp only [ShaderProgram.writesSince, List.drop_left]

theorem List.any_ite_singleton {α : Type} (c : Bool) (a : α) (f : α → Bool) :
    (if c = true then [a] else []).any f = (c && f a) := by
  cases c <;> simp

theorem ProgramWrite.any_isUniform_map_slicePlane (name : String) (f : SlicePlane → Bool)
    (planes : List SlicePlane) :
    (planes.map (fun sp => ProgramWrite.slicePlane sp.name (f sp))).any
        (ProgramWrite.isUniform name) = false := by
  induction planes with
  | nil => rfl
  | cons sp l ih => simp [ProgramWrite.isUniform]

theorem ProgramWrite.any_isTexture_map_slicePlane (name : String) (f : SlicePlane → Bool)
    (planes : List SlicePlane) :
    (planes.map (fun sp => ProgramWrite.slicePlane sp.name (f sp))).any
        (ProgramWrite.isTexture name) = false := by
  induction planes with
  | nil => rfl
  | cons sp l ih => simp [ProgramWrite.isTexture]

theorem Structure.wrote_transparency (s : Structure) (ctx : RenderContext) (p : ShaderProgram) :
    (((s.setTransformUniforms ctx p).writesSince p.writes.length).any
          (ProgramWrite.isUniform "u_transparency")
        = (ctx.transparencyEnabled && p.hasUniform "u_transparency"))
      ∧ (((s.setTransformUniforms ctx p).writesSince p.writes.length).any
          (ProgramWrite.isUniform "u_viewportDim")
        = (ctx.transparencyEnabled && p.hasUniform "u_viewportDim"))
      ∧ (((s.setTransformUniforms ctx p).writesSince p.writes.length).any
          (ProgramWrite.isTexture "t_minDepth")
        = (ctx.transparencyEnabled && p.hasTexture "t_minDepth"
            && !p.textureIsSet "t_minDepth")) := by
  rw [Structure.setTransformUniforms_writesSince]
  simp only [List.any_append, ProgramWrite.any_isUniform_map_slicePlane,
    ProgramWrite.any_isTexture_map_slicePlane, List.any_ite_singleton, List.any_cons,
    List.any_nil, ProgramWrite.isUniform, ProgramWrite.isTexture]
  simp

theorem Structure.wrote_worldPos (s : Structure) (ctx : RenderContext) (p : ShaderProgram) :
    (((s.setTransformUniforms ctx p).writesSince p.writes.length).any
          (ProgramWrite.isUniform "u_viewport_worldPos") = p.hasUniform "u_viewport_worldPos")
      ∧ (((s.setTransformUniforms ctx p).writesSince p.writes.length).any
          (ProgramWrite.isUniform "u_invProjMatrix_worldPos")
        = p.hasUniform "u_invProjMatrix_worldPos")
      ∧ (((s.setTransformUniforms ctx p).writesSince p.writes.length).any
          (ProgramWrite.isUniform "u_invViewMatrix_worldPos")
        = p.hasUniform "u_invViewMatrix_worldPos") := by
  rw [Structure.setTransformUniforms_writesSince]
  simp only [List.any_append, ProgramWrite.any_isUniform_map_slicePlane,
    ProgramWrite.any_isTexture_map_slicePlane, List.any_ite_singleton, List.any_cons,
    List.any_nil, ProgramWrite.isUniform, ProgramWrite.isTexture]
  simp

/-- C14: in one call of `setTransformUniforms`, each of `u_transparency`,
`u_viewportDim` and `t_minDepth` is written only if the program declares it, and
each of the three world-position uniforms is written exactly when the program
declares it, whatever the other declarations and the transparency state are. -/
theorem setTransformUniforms_optional_guarded (s : Structure) (ctx : RenderContext)
    (p : ShaderProgram) :
    ((s.transformUniformWrites ctx p).any (ProgramWrite.isUniform "u_transparency") = true →
        p.hasUniform "u_transparency" = true)
      ∧ ((s.transformUniformWrites ctx p).any (ProgramWrite.isUniform "u_viewportDim") = true →
        p.hasUniform "u_viewportDim" = true)
      ∧ ((s.transformUniformWrites ctx p).any (ProgramWrite.isTexture "t_minDepth") = true →
        p.hasTexture "t_minDepth" = true)
      ∧ (s.transformUniformWrites ctx p).any (ProgramWrite.isUniform "u_viewport_worldPos")
          = p.hasUniform "u_viewport_worldPos"
      ∧ (s.transformUniformWrites ctx p).any (ProgramWrite.isUniform "u_invProjMatrix_worldPos")
          = p.hasUniform "u_invProjMatrix_worldPos"
      ∧ (s.transformUniformWrites ctx p).any (ProgramWrite.isUniform "u_invViewMatrix_worldPos")
          = p.hasUniform "u_invViewMatrix_worldPos" := by
  obtain ⟨h1, h2, h3⟩ := Structure.wrote_transparency s ctx p
  obtain ⟨k1, k2, k3⟩ := Structure.wrote_worldPos s ctx p
  unfold Structure.transformUniformWrites
  refine ⟨?_, ?_, ?_, k1, k2, k3⟩
  · rw [h1]
    intro h
    exact (Bool.and_eq_true_iff.mp h).2
  · rw [h2]
    intro h
    exact (Bool.and_eq_true_iff.mp h).2
  · rw [h3]
    intro h
    exact (Bool.and_eq_true_iff.mp (Bool.and_eq_true_iff.mp h).1).2

/-- Witness for C14: with transparency on, the example program is sent
`u_transparency` and its min-depth texture, both of which it declares. -/
theorem setTransformUniforms_optional_guarded_witness :
    (((exampleCloud "cloud1").transformUniformWrites (exampleContext true) exampleProgram).any
          (ProgramWrite.isUniform "u_transparency") = true
        ∧ exampleProgram.hasUniform "u_transparency" = true)
      ∧ (((exampleCloud "cloud1").transformUniformWrites (exampleContext true) exampleProgram).any
          (ProgramWrite.isTexture "t_minDepth") = true
        ∧ exampleProgram.hasTexture "t_minDepth" = true) :=
  ⟨⟨by decide,
      (setTransformUniforms_optional_guarded (exampleCloud "cloud1") (exampleContext true)
        exampleProgram).1 (by decide)⟩,
    ⟨by decide,
      (setTransformUniforms_optional_guarded (exampleCloud "cloud1") (exampleContext true)
        exampleProgram).2.2.1 (by decide)⟩⟩

/-- C16: one call of `setTransformUniforms` calls the uniform-writing routine of
every slice plane of the list exactly once and in list order, passing for plane
`sp` the flag `getIgnoreSlicePlane(sp.name)`, which is true exactly when the name
is in the ignore-set of the structure. -/
theorem setTransformUniforms_slicePlanes (s : Structure) (ctx : RenderContext)
    (p : ShaderProgram) (name : String) :
    (s.transformUniformWrites ctx p).filterMap ProgramWrite.slicePlaneCall
        = ctx.slicePlanes.map (fun sp => (sp.name, s.getIgnoreSlicePlane sp.name))
      ∧ (s.getIgnoreSlicePlane name = true ↔ name ∈ s.ignoredSlicePlaneNames.get) := by
  refine ⟨?_, Structure.getIgnoreSlicePlane_iff s name⟩
  unfold Structure.transformUniformWrites
  rw [Structure.setTransformUniforms_writesSince]
  have hmap : ∀ planes : List SlicePlane,
      (planes.map (fun sp => ProgramWrite.slicePlane sp.name
          (s.getIgnoreSlicePlane sp.name))).filterMap ProgramWrite.slicePlaneCall
        = planes.map (fun sp => (sp.name, s.getIgnoreSlicePlane sp.name)) := by
    intro planes
    induction planes with
    | nil => rfl
    | cons sp l ih =>
      rw [List.map_cons, List.map_cons, ← ih]
      rfl
  have hite : ∀ (c : Bool) (n : String) (v : UniformValue),
      (if c = true then [ProgramWrite.uniform n v] else []).filterMap
        ProgramWrite.slicePlaneCall = [] := by
    intro c n v
    cases c <;> simp [ProgramWrite.slicePlaneCall]
  have htex : ∀ (c : Bool) (n : String),
      (if c = true then [ProgramWrite.texture n] else []).filterMap
        ProgramWrite.slicePlaneCall = [] := by
    intro c n
    cases c <;> simp [ProgramWrite.slicePlaneCall]
  simp only [List.filterMap_append, hmap, hite, htex, List.append_nil, List.nil_append]
  simp [ProgramWrite.slicePlaneCall]

/-! ### Helper lemmas: the min-depth texture over several calls -/

theorem Structure.setTransformUniforms_writes (s : Structure) (ctx : RenderContext)
    (p : ShaderProgram) :
    (s.setTransformUniforms ctx p).writes = p.writes ++ s.transformUniformWrites ctx p := by
  unfold Structure.transformUniformWrites ShaderProgram.writesSince
  rw [Structure.setTransformUniforms_closed]
  simp only [List.drop_left]

theorem List.countP_ite_singleton {α : Type} (c : Bool) (a : α) (f : α → Bool) :
    (if c = true then [a] else []).countP f = if (c && f a) = true then 1 else 0 := by
  cases c <;> cases h : f a <;> simp [h]

theorem ProgramWrite.countP_isTexture_map_slicePlane (name : String) (f : SlicePlane → Bool)
    (planes : List SlicePlane) :
    (planes.map (fun sp => ProgramWrite.slicePlane sp.name (f sp))).countP
        (ProgramWrite.isTexture name) = 0 := by
  induction planes with
  | nil => rfl
  | cons sp l ih =>
    rw [List.map_cons, List.countP_cons, ih]
    rfl

theorem Structure.countP_minDepth (s : Structure) (ctx : RenderContext) (p : ShaderProgram) :
    (s.transformUniformWrites ctx p).countP (ProgramWrite.isTexture "t_minDepth")
      = if (ctx.transparencyEnabled && p.hasTexture "t_minDepth"
            && !p.textureIsSet "t_minDepth") = true then 1 else 0 := by
  unfold Structure.transformUniformWrites
  rw [Structure.setTransformUniforms_writesSince]
  simp only [List.countP_append, List.countP_ite_singleton,
    ProgramWrite.countP_isTexture_map_slicePlane, List.countP_cons, List.countP_nil,
    ProgramWrite.isUniform, ProgramWrite.isTexture]
  simp

theorem Structure.textureIsSet_setTransformUniforms (s : Structure) (ctx : RenderContext)
    (p : ShaderProgram) (h : p.textureIsSet "t_minDepth" = true) :
    (s.setTransformUniforms ctx p).textureIsSet "t_minDepth" = true := by
  rw [Structure.setTransformUniforms_closed, ShaderProgram.textureIsSet_mk]
  have h2 : p.boundTextures.contains "t_minDepth" = true := h
  split
  · simp
  · exact h2

theorem Structure.textureIsSet_after_attach (s : Structure) (ctx : RenderContext)
    (p : ShaderProgram)
    (h : (ctx.transparencyEnabled && p.hasTexture "t_minDepth"
            && !p.textureIsSet "t_minDepth") = true) :
    (s.setTransformUniforms ctx p).textureIsSet "t_minDepth" = true := by
  rw [Structure.setTransformUniforms_closed, ShaderProgram.textureIsSet_mk, if_pos h]
  simp

theorem runTransformUniforms_cons (p : ShaderProgram) (c : Structure × RenderContext)
    (calls : List (Structure × RenderContext)) :
    runTransformUniforms p (c :: calls)
      = runTransformUniforms (c.1.setTransformUniforms c.2 p) calls := rfl

theorem runTransformUniforms_bound (calls : List (Structure × RenderContext))
    (p : ShaderProgram) (h : p.textureIsSet "t_minDepth" = true) :
    ∃ ws, (runTransformUniforms p calls).writes = p.writes ++ ws
      ∧ ws.countP (ProgramWrite.isTexture "t_minDepth") = 0 := by
  induction calls generalizing p with
  | nil => exact ⟨[], by simp [runTransformUniforms], rfl⟩
  | cons c l ih =>
    obtain ⟨ws, hws, hcount⟩ :=
      ih (c.1.setTransformUniforms c.2 p) (Structure.textureIsSet_setTransformUniforms c.1 c.2 p h)
    refine ⟨c.1.transformUniformWrites c.2 p ++ ws, ?_, ?_⟩
    · rw [runTransformUniforms_cons, hws, Structure.setTransformUniforms_writes,
        List.append_assoc]
    · rw [List.countP_append, hcount, Structure.countP_minDepth]
      simp [h]

/-- C15: a call made while transparency compositing is off writes none of
`u_transparency`, `u_viewportDim` and `t_minDepth`; and on a program that declares
`t_minDepth` with the slot unbound, a first call made with transparency on attaches
the texture exactly once, while no later call of the sequence attaches it again. -/
theorem minDepth_attached_once (p : ShaderProgram) (c : Structure × RenderContext)
    (calls : List (Structure × RenderContext)) :
    (c.2.transparencyEnabled = false →
        (c.1.transformUniformWrites c.2 p).any (ProgramWrite.isUniform "u_transparency") = false
          ∧ (c.1.transformUniformWrites c.2 p).any (ProgramWrite.isUniform "u_viewportDim")
              = false
          ∧ (c.1.transformUniformWrites c.2 p).any (ProgramWrite.isTexture "t_minDepth") = false)
      ∧ (p.hasTexture "t_minDepth" = true → p.textureIsSet "t_minDepth" = false →
          c.2.transparencyEnabled = true →
          (c.1.transformUniformWrites c.2 p).countP (ProgramWrite.isTexture "t_minDepth") = 1
            ∧ ((runTransformUniforms p (c :: calls)).writesSince
                (c.1.setTransformUniforms c.2 p).writes.length).countP
                  (ProgramWrite.isTexture "t_minDepth") = 0
            ∧ ((runTransformUniforms p (c :: calls)).writesSince p.writes.length).countP
                (ProgramWrite.isTexture "t_minDepth") = 1) := by
  constructor
  · intro hoff
    obtain ⟨h1, h2, h3⟩ := Structure.wrote_transparency c.1 c.2 p
    unfold Structure.transformUniformWrites
    rw [h1, h2, h3, hoff]
    exact ⟨rfl, rfl, rfl⟩
  · intro hdecl hunbound hon
    have hattach : (c.2.transparencyEnabled && p.hasTexture "t_minDepth"
        && !p.textureIsSet "t_minDepth") = true := by
      rw [hon, hdecl, hunbound]
      rfl
    have hfirst : (c.1.transformUniformWrites c.2 p).countP
        (ProgramWrite.isTexture "t_minDepth") = 1 := by
      rw [Structure.countP_minDepth, if_pos hattach]
    obtain ⟨ws, hws, hcount⟩ := runTransformUniforms_bound calls
      (c.1.setTransformUniforms c.2 p) (Structure.textureIsSet_after_attach c.1 c.2 p hattach)
    refine ⟨hfirst, ?_, ?_⟩
    · rw [runTransformUniforms_cons]
      unfold ShaderProgram.writesSince
      rw [hws, List.drop_left]
      exact hcount
    · rw [runTransformUniforms_cons]
      unfold ShaderProgram.writesSince
      rw [hws, Structure.setTransformUniforms_writes, List.append_assoc, List.drop_left,
        List.countP_append, hfirst, hcount]

/-- Witness for C15: with transparency off nothing is attached to the example
program; with it on, three calls in a row attach its min-depth texture once. -/
theorem minDepth_attached_once_witness :
    ((exampleContext false).transparencyEnabled = false
        ∧ ((exampleCloud "cloud1").transformUniformWrites (exampleContext false)
            exampleProgram).any (ProgramWrite.isTexture "t_minDepth") = false)
      ∧ (exampleProgram.hasTexture "t_minDepth" = true
        ∧ exampleProgram.textureIsSet "t_minDepth" = false
        ∧ (exampleContext true).transparencyEnabled = true
        ∧ ((runTransformUniforms exampleProgram
              [(exampleCloud "cloud1", exampleContext true),
                (exampleMesh "m", exampleContext true),
                (exampleCloud "cloud1", exampleContext true)]).writesSince
              exampleProgram.writes.length).countP (ProgramWrite.isTexture "t_minDepth") = 1) :=
  ⟨⟨rfl,
      ((minDepth_attached_once exampleProgram (exampleCloud "cloud1", exampleContext false)
        []).1 rfl).2.2⟩,
    ⟨by decide, by decide, rfl,
      ((minDepth_attached_once exampleProgram (exampleCloud "cloud1", exampleContext true)
        [(exampleMesh "m", exampleContext true),
          (exampleCloud "cloud1", exampleContext true)]).2
        (by decide) (by decide) rfl).2.2⟩⟩

end polyscope
